import Mathlib

/-!
# Knock-out bracket tournament: embedding of `player.hpp` and `tournament.hpp`

The bracket is a binary tree of `Player` nodes owned through `unique_ptr`.
A possibly-null owning pointer is the inductive type `Player` (constructor
`null` is `nullptr`).  A raw `Player*` into the tree is the position of the
node it points to (`Path`, the left/right turns from the root); `none` is
`nullptr`.  The class `Tournament` is the record of its two members, `root`
and `rng`, and every mutating method is a function on that record.

The random engine is the sequence of values that the distributions hand
out, together with the number of values handed out so far.  That a value
lies in the range given to the distribution is the library's contract and
appears as a hypothesis of the theorems that need it.
-/

namespace KnockOut

/-! ## Data model (`player.hpp`) -/

/-- One turn from a node to a child: `left` or `right`. -/
inductive Dir where
  | L : Dir
  | R : Dir
deriving DecidableEq

/-- Position of a node in the tree: the turns taken from the root. It stands for a `Player*`. -/
abbrev Path := List Dir

/-- A `unique_ptr<Player>`: either `nullptr` or a node with `matchId`, `score`, `name`, `left`, `right`. -/
inductive Player where
  | null : Player
  | node (matchId : Int) (score : Int) (name : String) (left right : Player) : Player
deriving DecidableEq

namespace Player

/-- Test `!p` of a pointer. -/
def isNull : Player → Bool
  | null => true
  | node _ _ _ _ _ => false

/-- Field `matchId` (0 is returned for `nullptr`, which the program never dereferences). -/
def matchId : Player → Int
  | null => 0
  | node i _ _ _ _ => i

/-- Field `score`. -/
def score : Player → Int
  | null => 0
  | node _ s _ _ _ => s

/-- Field `name`. -/
def name : Player → String
  | null => ""
  | node _ _ n _ _ => n

/-- Field `left`. -/
def left : Player → Player
  | null => null
  | node _ _ _ l _ => l

/-- Field `right`. -/
def right : Player → Player
  | null => null
  | node _ _ _ _ r => r

/-- `Player::createNode(matchId, score, name)`: a fresh node with both children null. -/
def createNode (matchId score : Int) (name : String) : Player :=
  node matchId score name null null

/-- Dereference of a `Player*`: the node found at a position (`null` when the position leaves the tree). -/
def nodeAt : Player → Path → Player
  | p, [] => p
  | null, _ :: _ => null
  | node _ _ _ l _, Dir.L :: ps => nodeAt l ps
  | node _ _ _ _ r, Dir.R :: ps => nodeAt r ps

/-- Assignment `p = v` to the owning pointer found at a position (`root->left->right = v`). -/
def assign : Player → Path → Player → Player
  | _, [], v => v
  | null, _ :: _, _ => null
  | node i s n l r, Dir.L :: ps, v => node i s n (assign l ps v) r
  | node i s n l r, Dir.R :: ps, v => node i s n l (assign r ps v)

/-- Assignment `m->name = v` through a pointer `m`. -/
def setName : Player → Path → String → Player
  | null, _, _ => null
  | node i s _ l r, [], v => node i s v l r
  | node i s n l r, Dir.L :: ps, v => node i s n (setName l ps v) r
  | node i s n l r, Dir.R :: ps, v => node i s n l (setName r ps v)

/-- Assignment `m->score = v` through a pointer `m`. -/
def setScore : Player → Path → Int → Player
  | null, _, _ => null
  | node i _ n l r, [], v => node i v n l r
  | node i s n l r, Dir.L :: ps, v => node i s n (setScore l ps v) r
  | node i s n l r, Dir.R :: ps, v => node i s n l (setScore r ps v)

end Player

open Player Dir

/-! ## Random source -/

/-- The engine `mt19937 rng` seen through its distributions: `draws k` is the `k`-th value handed
out, `pos` the number of values handed out so far. -/
structure Rng where
  draws : Nat → Nat
  pos : Nat

/-- One call `dist(rng)`: the next value, and the engine advanced by one. -/
def Rng.next (g : Rng) : Nat × Rng :=
  (g.draws g.pos, { g with pos := g.pos + 1 })

/-- The class `Tournament`: its members `root` and `rng`. -/
structure Tournament where
  root : Player
  rng : Rng

/-! ## `tournament.hpp` -/

/-- `randomScore(min, max)`: one draw from `uniform_int_distribution<int>(min, max)`. -/
def randomScore (t : Tournament) (_min _max : Int) : Int × Tournament :=
  let (v, g) := t.rng.next
  ((v : Int), { t with rng := g })

/-- `swap(vec[i], vec[j])`. -/
def swap {α : Type} [Inhabited α] (vec : List α) (i j : Nat) : List α :=
  (vec.set i vec[j]!).set j vec[i]!

/-- The loop of `shuffleVector`, entered with index `i`: while `i > 0`, draw `j` from
`uniform_int_distribution<size_t>(0, i)`, swap `vec[i]` and `vec[j]`, decrement `i`. -/
def shuffleLoop {α : Type} [Inhabited α] : Nat → List α → Rng → List α × Rng
  | 0, vec, g => (vec, g)
  | i + 1, vec, g =>
    let (j, g1) := g.next
    shuffleLoop i (swap vec (i + 1) j) g1

/-- `shuffleVector(vec)`: Fisher-Yates from `i = vec.size() - 1` down to 1.  (The roster passed
by `buildTournament` has 8 entries; an empty vector, where the `size_t` index wraps, is never
passed.) -/
def shuffleVector {α : Type} [Inhabited α] (vec : List α) (g : Rng) : List α × Rng :=
  shuffleLoop (vec.length - 1) vec g

/-- `height(node)`: -1 for null, 0 for a leaf, otherwise one more than the taller child. -/
def height : Player → Int
  | null => -1
  | node _ _ _ l r =>
    if l.isNull && r.isNull then 0
    else max (height l) (height r) + 1

/-- `findLeaf(root, name)`: the first leaf, left before right, whose name matches. -/
def findLeaf : Player → String → Option Path
  | null, _ => none
  | node _ _ n l r, name =>
    if l.isNull && r.isNull then
      if n = name then some [] else none
    else
      match findLeaf l name with
      | some p => some (L :: p)
      | none =>
        match findLeaf r name with
        | some p => some (R :: p)
        | none => none

/-- `findMatchById(root, matchId)`: the first node, parent before children and left before right,
whose `matchId` matches. -/
def findMatchById : Player → Int → Option Path
  | null, _ => none
  | node i _ _ l r, matchId =>
    if i = matchId then some []
    else
      match findMatchById l matchId with
      | some p => some (L :: p)
      | none =>
        match findMatchById r matchId with
        | some p => some (R :: p)
        | none => none

/-- `lca(root, a, b)`.  `here` is the address of `root`, so that `root == a` is `here = a`; the
result is an address as well. -/
def lca : Player → Path → Path → Path → Option Path
  | null, _, _, _ => none
  | node _ _ _ l r, here, a, b =>
    if here = a ∨ here = b then some here
    else
      let left := lca l (here ++ [L]) a b
      let right := lca r (here ++ [R]) a b
      if left.isSome ∧ right.isSome then some here
      else if left.isSome then left else right

/-- `collectTheoreticalPath(node, playerName, path)`: the returned flag, and `path` after the call. -/
def collectTheoreticalPath : Player → String → List Int → Bool × List Int
  | null, _, path => (false, path)
  | node i _ n l r, playerName, path =>
    if l.isNull && r.isNull then (decide (n = playerName), path)
    else
      let (foundLeft, path1) := collectTheoreticalPath l playerName path
      if foundLeft then (true, path1 ++ [i])
      else
        let (foundRight, path2) := collectTheoreticalPath r playerName path1
        if foundRight then (true, path2 ++ [i])
        else (false, path2)

/-- The `for` loop of `pathToFinal` over the remaining ladder, with `actualPath` so far. -/
def pathLoop (root : Player) (playerName : String) : List Int → List Int → List Int
  | [], actualPath => actualPath
  | matchId :: rest, actualPath =>
    match findMatchById root matchId with
    | none => pathLoop root playerName rest actualPath
    | some m =>
      if (root.nodeAt m).name ≠ playerName then actualPath ++ [matchId]
      else pathLoop root playerName rest (actualPath ++ [matchId])

/-- `pathToFinal(playerName)`. -/
def pathToFinal (t : Tournament) (playerName : String) : List Int :=
  let (found, theoreticalPath) := collectTheoreticalPath t.root playerName []
  if !found then []
  else pathLoop t.root playerName theoreticalPath []

/-- `wouldMeet(p1, p2)`. -/
def wouldMeet (t : Tournament) (p1 p2 : String) : Int × Int :=
  match findLeaf t.root p1, findLeaf t.root p2 with
  | some n1, some n2 =>
    match lca t.root [] n1 n2 with
    | none => (-1, -1)
    | some m =>
      if (t.root.nodeAt m).left.isNull && (t.root.nodeAt m).right.isNull then (-1, -1)
      else ((t.root.nodeAt m).matchId, height (t.root.nodeAt m))
  | _, _ => (-1, -1)

/-- Arithmetic of the 32-bit `int`: the value of a sum as a two's complement `int` holds it. -/
def wrapInt32 (x : Int) : Int :=
  (x + 2147483648) % 4294967296 - 2147483648

/-- `getTotalScoreByName(root, name)`: `int total = 0`, then the three `total += ...`, each in
32-bit `int`. -/
def getTotalScoreByName : Player → String → Int
  | null, _ => 0
  | node i s n l r, name =>
    let total : Int := 0
    let total := if i ≠ 0 ∧ n = name then wrapInt32 (total + s) else total
    let total := wrapInt32 (total + getTotalScoreByName l name)
    wrapInt32 (total + getTotalScoreByName r name)

/-- `findMatchByName(root, name)`. -/
def findMatchByName : Player → String → Option Path
  | null, _ => none
  | node i _ n l r, name =>
    if i ≠ 0 ∧ n = name then some []
    else
      match findMatchByName l name with
      | some p => some (L :: p)
      | none =>
        match findMatchByName r name with
        | some p => some (R :: p)
        | none => none

/-- `printPlayers(root)`: the names it prints, in the order printed (the leaves, left to right). -/
def printPlayers : Player → List String
  | null => []
  | node _ _ n l r =>
    if l.isNull && r.isNull then [n]
    else printPlayers l ++ printPlayers r

/-- `playMatchRandom(match, label)`, `match` being a pointer into the tree: two draws in
`[1, 10]`, left first, then the winner's name and score are stored on the match node. -/
def playMatchRandom (t : Tournament) (m : Path) : Tournament :=
  let (leftScore, t1) := randomScore t 1 10
  let (rightScore, t2) := randomScore t1 1 10
  if leftScore ≥ rightScore then
    let root1 := t2.root.setName m (t2.root.nodeAt m).left.name
    { t2 with root := root1.setScore m leftScore }
  else
    let root1 := t2.root.setName m (t2.root.nodeAt m).right.name
    { t2 with root := root1.setScore m rightScore }

/-- `playRound1()`: the quarterfinals QF1..QF4, in that order. -/
def playRound1 (t : Tournament) : Tournament :=
  let q1 : Path := [L, L]
  let q2 : Path := [L, R]
  let q3 : Path := [R, L]
  let q4 : Path := [R, R]
  let t := playMatchRandom t q1
  let t := playMatchRandom t q2
  let t := playMatchRandom t q3
  playMatchRandom t q4

/-- `playRound2()`: the semifinals SF1, SF2. -/
def playRound2 (t : Tournament) : Tournament :=
  let s1 : Path := [L]
  let s2 : Path := [R]
  let t := playMatchRandom t s1
  playMatchRandom t s2

/-- `playFinal()`: the match at the root. -/
def playFinal (t : Tournament) : Tournament :=
  playMatchRandom t []

/-- `buildTournament()`: the 7 match nodes, the shuffled roster, the 8 leaves. -/
def buildTournament (t : Tournament) : Tournament :=
  let root := createNode 7 0 "FINAL TBD"
  let root := root.assign [L] (createNode 5 0 "SF1 TBD")
  let root := root.assign [R] (createNode 6 0 "SF2 TBD")
  let root := root.assign [L, L] (createNode 1 0 "QF1 TBD")
  let root := root.assign [L, R] (createNode 2 0 "QF2 TBD")
  let root := root.assign [R, L] (createNode 3 0 "QF3 TBD")
  let root := root.assign [R, R] (createNode 4 0 "QF4 TBD")
  let names := ["Alice", "Bob", "Carol", "David", "Eva", "Frank", "Grace", "Henry"]
  let (names, g) := shuffleVector names t.rng
  let root := root.assign [L, L, L] (createNode 0 0 names[0]!)
  let root := root.assign [L, L, R] (createNode 0 0 names[1]!)
  let root := root.assign [L, R, L] (createNode 0 0 names[2]!)
  let root := root.assign [L, R, R] (createNode 0 0 names[3]!)
  let root := root.assign [R, L, L] (createNode 0 0 names[4]!)
  let root := root.assign [R, L, R] (createNode 0 0 names[5]!)
  let root := root.assign [R, R, L] (createNode 0 0 names[6]!)
  let root := root.assign [R, R, R] (createNode 0 0 names[7]!)
  { root := root, rng := g }

/-- `runTournament()` up to the printing: build, quarterfinals, semifinals, final. -/
def runTournament (t : Tournament) : Tournament :=
  playFinal (playRound2 (playRound1 (buildTournament t)))

/-! ## Vocabulary of the statements -/

/-- The fixed roster of `buildTournament`. -/
def roster : List String :=
  ["Alice", "Bob", "Carol", "David", "Eva", "Frank", "Grace", "Henry"]

/-- A node without children (`!node->left && !node->right` on a non-null node). -/
def Player.isLeaf (p : Player) : Bool := !p.isNull && p.left.isNull && p.right.isNull

/-- The seven shuffle draws are in range: the draw number `k` (from 0) is made at step
`i = 7 - k` from `uniform_int_distribution<size_t>(0, i)`, so it lies in `[0, i]`. -/
def ShuffleOk (g : Rng) : Prop := ∀ k < 7, g.draws (g.pos + k) ≤ 7 - k

instance (g : Rng) : Decidable (ShuffleOk g) := by unfold ShuffleOk; infer_instance

/-- The fourteen match draws, which follow the seven shuffle draws, are in range: each comes from
`randomScore(1, 10)`, so it lies in `[1, 10]`. -/
def ScoresOk (g : Rng) : Prop :=
  ∀ k < 14, 1 ≤ g.draws (g.pos + 7 + k) ∧ g.draws (g.pos + 7 + k) ≤ 10

instance (g : Rng) : Decidable (ScoresOk g) := by unfold ScoresOk; infer_instance

/-- The match nodes in the order in which `playRound1`, `playRound2`, `playFinal` play them:
QF1, QF2, QF3, QF4, SF1, SF2, FINAL. -/
def matchOrder : List Path := [[L, L], [L, R], [R, L], [R, R], [L], [R], []]

/-- The state after the first `k` matches of `matchOrder` have been played: `k = 0` is the built
bracket, `k = 4` the state after `playRound1`, `k = 6` after `playRound2`, `k = 7` after
`playFinal`. -/
def playedUpTo (k : Nat) (t : Tournament) : Tournament :=
  (matchOrder.take k).foldl playMatchRandom t

/-- Every node of a tree, parent before children, left before right. -/
def nodes : Player → List Player
  | null => []
  | node i s n l r => node i s n l r :: (nodes l ++ nodes r)

/-- The specification of `getTotalScoreByName`, in the words of the spec: the scores of every
match node (`matchId != 0`) whose recorded winner equals `name`; the total is their sum. -/
def wonScores (T : Player) (name : String) : List Int :=
  ((nodes T).filter (fun x => decide (x.matchId ≠ 0 ∧ x.name = name))).map Player.score

/-- A run used to instantiate the theorems: shuffle draws 3, 1, 4, 1, 2, 0, 1, then the match
draws (5, 5), (2, 9), (10, 1), (3, 4), (6, 6), (1, 2), (7, 8). -/
def sampleRng : Rng :=
  ⟨fun k => [3, 1, 4, 1, 2, 0, 1, 5, 5, 2, 9, 10, 1, 3, 4, 6, 6, 1, 2, 7, 8].getD k 1, 0⟩

/-- A freshly constructed `Tournament` (null root) with the engine `sampleRng`. -/
def sampleTournament : Tournament := ⟨null, sampleRng⟩

/-! ## The bracket in normal form

Every state of a run is a tree of one fixed shape; `Fields` records what varies. -/

/-- The contents of a bracket of the built shape: leaf names `n0..n7` (slot order), recorded
winners `w1..w7` and recorded scores `s1..s7` (by `matchId`). -/
structure Fields where
  n0 : String
  n1 : String
  n2 : String
  n3 : String
  n4 : String
  n5 : String
  n6 : String
  n7 : String
  w1 : String
  w2 : String
  w3 : String
  w4 : String
  w5 : String
  w6 : String
  w7 : String
  s1 : Int
  s2 : Int
  s3 : Int
  s4 : Int
  s5 : Int
  s6 : Int
  s7 : Int

/-- The tree of the built shape with the given contents. -/
def Fields.tree (f : Fields) : Player :=
  node 7 f.s7 f.w7
    (node 5 f.s5 f.w5
      (node 1 f.s1 f.w1 (node 0 0 f.n0 null null) (node 0 0 f.n1 null null))
      (node 2 f.s2 f.w2 (node 0 0 f.n2 null null) (node 0 0 f.n3 null null)))
    (node 6 f.s6 f.w6
      (node 3 f.s3 f.w3 (node 0 0 f.n4 null null) (node 0 0 f.n5 null null))
      (node 4 f.s4 f.w4 (node 0 0 f.n6 null null) (node 0 0 f.n7 null null)))

/-- The leaf names in slot order. -/
def Fields.names (f : Fields) : List String := [f.n0, f.n1, f.n2, f.n3, f.n4, f.n5, f.n6, f.n7]

/-- The contents right after `buildTournament`: placeholders and zero scores on the matches. -/
def Fields.init (n0 n1 n2 n3 n4 n5 n6 n7 : String) : Fields :=
  { n0 := n0, n1 := n1, n2 := n2, n3 := n3, n4 := n4, n5 := n5, n6 := n6, n7 := n7,
    w1 := "QF1 TBD", w2 := "QF2 TBD", w3 := "QF3 TBD", w4 := "QF4 TBD",
    w5 := "SF1 TBD", w6 := "SF2 TBD", w7 := "FINAL TBD",
    s1 := 0, s2 := 0, s3 := 0, s4 := 0, s5 := 0, s6 := 0, s7 := 0 }

/-- The effect on the contents of playing the match number `k` of `matchOrder` (from 0) with left
score `a` and right score `b`. -/
def Fields.play (f : Fields) (k : Nat) (a b : Int) : Fields :=
  match k with
  | 0 => { f with w1 := if a ≥ b then f.n0 else f.n1, s1 := if a ≥ b then a else b }
  | 1 => { f with w2 := if a ≥ b then f.n2 else f.n3, s2 := if a ≥ b then a else b }
  | 2 => { f with w3 := if a ≥ b then f.n4 else f.n5, s3 := if a ≥ b then a else b }
  | 3 => { f with w4 := if a ≥ b then f.n6 else f.n7, s4 := if a ≥ b then a else b }
  | 4 => { f with w5 := if a ≥ b then f.w1 else f.w2, s5 := if a ≥ b then a else b }
  | 5 => { f with w6 := if a ≥ b then f.w3 else f.w4, s6 := if a ≥ b then a else b }
  | 6 => { f with w7 := if a ≥ b then f.w5 else f.w6, s7 := if a ≥ b then a else b }
  | _ => f

/-- The contents after the first `k` matches, the engine being `g` before the first of them. -/
def Fields.stage : Nat → Fields → Rng → Fields
  | 0, f, _ => f
  | k + 1, f, g =>
    (Fields.stage k f g).play k (g.draws (g.pos + 2 * k)) (g.draws (g.pos + 2 * k + 1))

/-- Every recorded winner is the name carried by one of the two children of its match. -/
def Fields.Decided (f : Fields) : Prop :=
  (f.w1 = f.n0 ∨ f.w1 = f.n1) ∧ (f.w2 = f.n2 ∨ f.w2 = f.n3) ∧
  (f.w3 = f.n4 ∨ f.w3 = f.n5) ∧ (f.w4 = f.n6 ∨ f.w4 = f.n7) ∧
  (f.w5 = f.w1 ∨ f.w5 = f.w2) ∧ (f.w6 = f.w3 ∨ f.w6 = f.w4) ∧
  (f.w7 = f.w5 ∨ f.w7 = f.w6)

/-- A run in which Alice is seated in quarterfinal 1 (slot order Bob, Alice, Carol, ...), wins QF1
(3 against 8) and SF1 (9 against 2) and loses the final (1 against 5).  Shuffle draws
7, 6, 5, 4, 3, 2, 0, then the match draws. -/
def aliceRng : Rng :=
  ⟨fun k => [7, 6, 5, 4, 3, 2, 0, 3, 8, 5, 5, 2, 9, 4, 1, 9, 2, 6, 6, 1, 5].getD k 1, 0⟩

/-- A freshly constructed `Tournament` with the engine `aliceRng`. -/
def aliceTournament : Tournament := ⟨null, aliceRng⟩

/-- The positions of the leaves (nodes without children) of a tree, left before right. -/
def leafPaths : Player → List Path
  | null => []
  | node _ _ _ l r =>
    if l.isNull && r.isNull then [[]]
    else (leafPaths l).map (fun p => L :: p) ++ (leafPaths r).map (fun p => R :: p)

/-- The specification of `findLeaf`, in the words of the spec: the first leaf, in left-before-right
order, whose name matches, or not found. -/
def firstLeafNamed (T : Player) (name : String) : Option Path :=
  (leafPaths T).find? (fun p => decide ((T.nodeAt p).name = name))

/-- The names that `buildTournament` puts on the match nodes before any match is played. -/
def placeholders : List String :=
  ["QF1 TBD", "QF2 TBD", "QF3 TBD", "QF4 TBD", "SF1 TBD", "SF2 TBD", "FINAL TBD"]

/-- A tree with the results wiped: on every node that has a child, `name` and `score` are reset;
the shape, every `matchId` and the leaves (with their name and score) are kept. -/
def eraseResults : Player → Player
  | null => null
  | node i s n l r =>
    if l.isNull && r.isNull then node i s n l r
    else node i 0 "" (eraseResults l) (eraseResults r)

/-- The longest common prefix of two positions: the position of the deepest node whose subtree
contains both. -/
def commonPrefix : Path → Path → Path
  | x :: a, y :: b => if x = y then x :: commonPrefix a b else []
  | _, _ => []

/-- A tree with every `matchId`, `score` and `name` wiped; only the shape is kept. -/
def blank : Player → Player
  | null => null
  | node _ _ _ l r => node 0 0 "" (blank l) (blank r)

/-- The shape of the bracket: 7 match nodes above 8 leaves. -/
def bracketShape : Player :=
  blank (Fields.init "" "" "" "" "" "" "" "").tree

/-- The positions of the 15 nodes of the bracket. -/
def allPaths : List Path :=
  [[], [L], [R], [L, L], [L, R], [R, L], [R, R],
    [L, L, L], [L, L, R], [L, R, L], [L, R, R], [R, L, L], [R, L, R], [R, R, L], [R, R, R]]

/-! ## Lemmas -/

theorem swap_length {α : Type} [Inhabited α] (vec : List α) (i j : Nat) :
    (swap vec i j).length = vec.length := by
  simp [swap]

theorem swap_perm {α : Type} [Inhabited α] [DecidableEq α] (vec : List α) (i j : Nat)
    (hi : i < vec.length) (hj : j < vec.length) : (swap vec i j).Perm vec := by
  rw [List.perm_iff_count]
  intro a
  unfold swap
  have h1 : vec[j]! = vec[j] := getElem!_pos vec j hj
  have h2 : vec[i]! = vec[i] := getElem!_pos vec i hi
  rw [h1, h2]
  rw [List.count_set _ _ _ _ (by simpa using hj), List.count_set _ _ _ _ hi]
  have hci := List.boole_getElem_le_count a vec i hi
  have hcj := List.boole_getElem_le_count a vec j hj
  by_cases hij : i = j
  · subst hij
    simp only [List.getElem_set_self]
    split_ifs at * <;> omega
  · rw [List.getElem_set_ne hij]
    split_ifs at * <;> omega

theorem shuffleLoop_spec {α : Type} [Inhabited α] [DecidableEq α] :
    ∀ (i : Nat) (vec : List α) (g : Rng), i < vec.length →
      (∀ k < i, g.draws (g.pos + k) ≤ i - k) →
      (shuffleLoop i vec g).1.Perm vec ∧ (shuffleLoop i vec g).2 = ⟨g.draws, g.pos + i⟩
  | 0, vec, g, _, _ => by simp [shuffleLoop]
  | i + 1, vec, g, hi, hd => by
    have hj : g.draws g.pos ≤ i + 1 := by simpa using hd 0 (by omega)
    have hsw := swap_perm vec (i + 1) (g.draws g.pos) hi (by omega)
    have ih := shuffleLoop_spec i (swap vec (i + 1) (g.draws g.pos)) ⟨g.draws, g.pos + 1⟩
      (by rw [swap_length]; omega)
      (by
        intro k hk
        have := hd (k + 1) (by omega)
        simp only at this ⊢
        rw [show g.pos + 1 + k = g.pos + (k + 1) by omega]
        omega)
    simp only [shuffleLoop, Rng.next]
    refine ⟨ih.1.trans hsw, ?_⟩
    rw [ih.2]
    simp only [Rng.mk.injEq, true_and]
    omega

theorem playMatchRandom_tree (f : Fields) (g : Rng) (k : Nat) (hk : k < 7) :
    playMatchRandom ⟨f.tree, g⟩ (matchOrder.getD k []) =
      ⟨(f.play k (g.draws g.pos) (g.draws (g.pos + 1))).tree, ⟨g.draws, g.pos + 2⟩⟩ := by
  interval_cases k <;>
    simp only [playMatchRandom, randomScore, Rng.next, matchOrder, List.getD_cons_zero,
      List.getD_cons_succ, Fields.tree, Fields.play] <;>
    split <;> rfl


theorem buildTournament_tree (t : Tournament) (h : ShuffleOk t.rng) :
    ∃ n0 n1 n2 n3 n4 n5 n6 n7 : String,
      [n0, n1, n2, n3, n4, n5, n6, n7].Perm roster ∧
      buildTournament t =
        ⟨(Fields.init n0 n1 n2 n3 n4 n5 n6 n7).tree, ⟨t.rng.draws, t.rng.pos + 7⟩⟩ := by
  have hs := shuffleLoop_spec 7 roster t.rng (by decide) h
  have hlen : (shuffleLoop 7 roster t.rng).1.length = 8 := by
    rw [hs.1.length_eq]; rfl
  have hb : buildTournament t =
      ⟨(Fields.init (shuffleLoop 7 roster t.rng).1[0]! (shuffleLoop 7 roster t.rng).1[1]!
          (shuffleLoop 7 roster t.rng).1[2]! (shuffleLoop 7 roster t.rng).1[3]!
          (shuffleLoop 7 roster t.rng).1[4]! (shuffleLoop 7 roster t.rng).1[5]!
          (shuffleLoop 7 roster t.rng).1[6]! (shuffleLoop 7 roster t.rng).1[7]!).tree,
        (shuffleLoop 7 roster t.rng).2⟩ := by
    simp only [buildTournament, shuffleVector, createNode, assign, Fields.tree, Fields.init,
      roster, List.length_cons, List.length_nil, Nat.reduceAdd, Nat.add_one_sub_one]
  rw [hb, hs.2]
  revert hs hlen
  generalize (shuffleLoop 7 roster t.rng).1 = v
  intro hs hlen
  match v, hlen with
  | [a0, a1, a2, a3, a4, a5, a6, a7], _ =>
    exact ⟨a0, a1, a2, a3, a4, a5, a6, a7, hs.1, rfl⟩

@[simp] theorem Player.isNull_node (i s : Int) (n : String) (l r : Player) :
    (node i s n l r).isNull = false := rfl

@[simp] theorem Player.isNull_null : null.isNull = true := rfl

@[simp] theorem Player.left_node (i s : Int) (n : String) (l r : Player) :
    (node i s n l r).left = l := rfl

@[simp] theorem Player.right_node (i s : Int) (n : String) (l r : Player) :
    (node i s n l r).right = r := rfl

@[simp] theorem Player.name_node (i s : Int) (n : String) (l r : Player) :
    (node i s n l r).name = n := rfl

@[simp] theorem Player.score_node (i s : Int) (n : String) (l r : Player) :
    (node i s n l r).score = s := rfl

@[simp] theorem Player.matchId_node (i s : Int) (n : String) (l r : Player) :
    (node i s n l r).matchId = i := rfl

theorem findLeaf_sound : ∀ (T : Player) (name : String) (p : Path),
    findLeaf T name = some p → (T.nodeAt p).isLeaf = true ∧ (T.nodeAt p).name = name
  | null, _, _, h => by simp [findLeaf] at h
  | node i s n l r, name, p, h => by
    unfold findLeaf at h
    split at h
    · rename_i hleaf
      split at h
      · rename_i hn
        simp only [Option.some.injEq] at h
        subst h
        simp only [Bool.and_eq_true] at hleaf
        simp [nodeAt, Player.isLeaf, hleaf.1, hleaf.2, hn]
      · simp at h
    · split at h
      · rename_i q hq
        simp only [Option.some.injEq] at h
        subst h
        simpa [nodeAt] using findLeaf_sound l name q hq
      · split at h
        · rename_i q hq
          simp only [Option.some.injEq] at h
          subst h
          simpa [nodeAt] using findLeaf_sound r name q hq
        · simp at h

theorem findLeaf_complete : ∀ (T : Player) (name : String),
    name ∈ printPlayers T → ∃ p, findLeaf T name = some p
  | null, _, h => by simp [printPlayers] at h
  | node i s n l r, name, h => by
    unfold printPlayers at h
    unfold findLeaf
    split at h
    · rename_i hleaf
      simp only [List.mem_singleton] at h
      simp [hleaf, h]
    · rename_i hleaf
      simp only [hleaf]
      rcases hl : findLeaf l name with _ | q
      · rcases hr : findLeaf r name with _ | q
        · rcases List.mem_append.1 h with h1 | h1
          · obtain ⟨p, hp⟩ := findLeaf_complete l name h1
            rw [hl] at hp; simp at hp
          · obtain ⟨p, hp⟩ := findLeaf_complete r name h1
            rw [hr] at hp; simp at hp
        · simp
      · simp

/-- Claim C1: whenever the seven shuffle draws are in range, the leaf names of the built bracket,
read left to right, are a permutation of the roster; `findLeaf` finds, for every roster name, a
leaf that carries this name; and two different roster names are found at two different leaves. -/
theorem buildTournament_seeds_roster (t : Tournament) (h : ShuffleOk t.rng) :
    (printPlayers (buildTournament t).root).Perm roster ∧
    (∀ n ∈ roster, ∃ p, findLeaf (buildTournament t).root n = some p ∧
        ((buildTournament t).root.nodeAt p).isLeaf = true ∧
        ((buildTournament t).root.nodeAt p).name = n) ∧
    (∀ n ∈ roster, ∀ m ∈ roster, n ≠ m →
        findLeaf (buildTournament t).root n ≠ findLeaf (buildTournament t).root m) := by
  obtain ⟨n0, n1, n2, n3, n4, n5, n6, n7, hperm, hb⟩ := buildTournament_tree t h
  have hpp : printPlayers (buildTournament t).root = [n0, n1, n2, n3, n4, n5, n6, n7] := by
    rw [hb]; rfl
  have hfind : ∀ n ∈ roster, ∃ p, findLeaf (buildTournament t).root n = some p ∧
        ((buildTournament t).root.nodeAt p).isLeaf = true ∧
        ((buildTournament t).root.nodeAt p).name = n := by
    intro n hn
    have hmem : n ∈ printPlayers (buildTournament t).root := by
      rw [hpp]; exact hperm.symm.subset hn
    obtain ⟨p, hp⟩ := findLeaf_complete _ _ hmem
    exact ⟨p, hp, findLeaf_sound _ _ _ hp⟩
  refine ⟨hpp ▸ hperm, hfind, ?_⟩
  intro n hn m hm hnm heq
  obtain ⟨p, hp, _, hname⟩ := hfind n hn
  obtain ⟨q, hq, _, hname2⟩ := hfind m hm
  rw [hp, hq] at heq
  simp only [Option.some.injEq] at heq
  subst heq
  exact hnm (hname.symm.trans hname2)


theorem playedUpTo_succ (t : Tournament) (k : Nat) (hk : k < 7) :
    playedUpTo (k + 1) t = playMatchRandom (playedUpTo k t) (matchOrder.getD k []) := by
  interval_cases k <;> rfl

theorem playedUpTo_tree (f : Fields) (g : Rng) :
    ∀ k, k ≤ 7 → playedUpTo k ⟨f.tree, g⟩ = ⟨(f.stage k g).tree, ⟨g.draws, g.pos + 2 * k⟩⟩
  | 0, _ => rfl
  | k + 1, hk => by
    rw [playedUpTo_succ _ k (by omega), playedUpTo_tree f g k (by omega),
      playMatchRandom_tree _ _ k (by omega)]
    simp only [Fields.stage, Tournament.mk.injEq, Rng.mk.injEq, true_and]
    omega

theorem names_ne {n0 n1 n2 n3 n4 n5 n6 n7 : String}
    (h : [n0, n1, n2, n3, n4, n5, n6, n7].Perm roster) :
    (n0 ≠ n1 ∧ n0 ≠ n2 ∧ n0 ≠ n3 ∧ n0 ≠ n4 ∧ n0 ≠ n5 ∧ n0 ≠ n6 ∧ n0 ≠ n7) ∧
    (n1 ≠ n0 ∧ n1 ≠ n2 ∧ n1 ≠ n3 ∧ n1 ≠ n4 ∧ n1 ≠ n5 ∧ n1 ≠ n6 ∧ n1 ≠ n7) ∧
    (n2 ≠ n0 ∧ n2 ≠ n1 ∧ n2 ≠ n3 ∧ n2 ≠ n4 ∧ n2 ≠ n5 ∧ n2 ≠ n6 ∧ n2 ≠ n7) ∧
    (n3 ≠ n0 ∧ n3 ≠ n1 ∧ n3 ≠ n2 ∧ n3 ≠ n4 ∧ n3 ≠ n5 ∧ n3 ≠ n6 ∧ n3 ≠ n7) ∧
    (n4 ≠ n0 ∧ n4 ≠ n1 ∧ n4 ≠ n2 ∧ n4 ≠ n3 ∧ n4 ≠ n5 ∧ n4 ≠ n6 ∧ n4 ≠ n7) ∧
    (n5 ≠ n0 ∧ n5 ≠ n1 ∧ n5 ≠ n2 ∧ n5 ≠ n3 ∧ n5 ≠ n4 ∧ n5 ≠ n6 ∧ n5 ≠ n7) ∧
    (n6 ≠ n0 ∧ n6 ≠ n1 ∧ n6 ≠ n2 ∧ n6 ≠ n3 ∧ n6 ≠ n4 ∧ n6 ≠ n5 ∧ n6 ≠ n7) ∧
    (n7 ≠ n0 ∧ n7 ≠ n1 ∧ n7 ≠ n2 ∧ n7 ≠ n3 ∧ n7 ≠ n4 ∧ n7 ≠ n5 ∧ n7 ≠ n6) := by
  have hnd : [n0, n1, n2, n3, n4, n5, n6, n7].Nodup := h.nodup_iff.2 (by decide)
  simp only [List.nodup_cons, List.mem_cons, List.mem_singleton, not_or, List.not_mem_nil,
    not_false_eq_true, List.nodup_nil, and_true] at hnd
  obtain ⟨⟨a1, a2, a3, a4, a5, a6, a7⟩, ⟨b2, b3, b4, b5, b6, b7⟩, ⟨c3, c4, c5, c6, c7⟩,
    ⟨d4, d5, d6, d7⟩, ⟨e5, e6, e7⟩, ⟨f6, f7⟩, g7⟩ := hnd
  refine ⟨⟨a1, a2, a3, a4, a5, a6, a7⟩, ⟨Ne.symm a1, b2, b3, b4, b5, b6, b7⟩,
    ⟨Ne.symm a2, Ne.symm b2, c3, c4, c5, c6, c7⟩,
    ⟨Ne.symm a3, Ne.symm b3, Ne.symm c3, d4, d5, d6, d7⟩,
    ⟨Ne.symm a4, Ne.symm b4, Ne.symm c4, Ne.symm d4, e5, e6, e7⟩,
    ⟨Ne.symm a5, Ne.symm b5, Ne.symm c5, Ne.symm d5, Ne.symm e5, f6, f7⟩,
    ⟨Ne.symm a6, Ne.symm b6, Ne.symm c6, Ne.symm d6, Ne.symm e6, Ne.symm f6, g7⟩,
    ⟨Ne.symm a7, Ne.symm b7, Ne.symm c7, Ne.symm d7, Ne.symm e7, Ne.symm f7, Ne.symm g7⟩⟩

/-- Claim C2: for each of the seven matches, taken in playing order, the winner recorded on its
node after the full simulation is the name that exactly one of its two children carried when the
match was played (left and not right, or right and not left), and the recorded score is the score
drawn for that child. -/
theorem match_winner_is_one_child (t : Tournament) (h : ShuffleOk t.rng) (k : Nat) (hk : k < 7) :
    let before := playedUpTo k (buildTournament t)
    let m := matchOrder.getD k []
    let played := before.root.nodeAt m
    let final := (runTournament t).root.nodeAt m
    let leftScore : Int := before.rng.draws before.rng.pos
    let rightScore : Int := before.rng.draws (before.rng.pos + 1)
    (final.name = played.left.name ∧ final.name ≠ played.right.name ∧ final.score = leftScore) ∨
    (final.name = played.right.name ∧ final.name ≠ played.left.name ∧
      final.score = rightScore) := by
  obtain ⟨n0, n1, n2, n3, n4, n5, n6, n7, hperm, hb⟩ := buildTournament_tree t h
  have hne := names_ne hperm
  have hrun : runTournament t = playedUpTo 7 (buildTournament t) := rfl
  rw [hrun, hb, playedUpTo_tree _ _ 7 (by omega), playedUpTo_tree _ _ k (by omega)]
  simp only [ne_eq] at hne
  obtain ⟨⟨a1, a2, a3, a4, a5, a6, a7⟩, ⟨b0, b2, b3, b4, b5, b6, b7⟩, ⟨c0, c1, c3, c4, c5, c6, c7⟩,
    ⟨d0, d1, d2, d4, d5, d6, d7⟩, ⟨e0, e1, e2, e3, e5, e6, e7⟩, ⟨f0, f1, f2, f3, f4, f6, f7⟩,
    ⟨g0, g1, g2, g3, g4, g5, g7⟩, ⟨i0, i1, i2, i3, i4, i5, i6⟩⟩ := hne
  interval_cases k <;>
    simp only [Fields.stage, Fields.play, Fields.tree, Fields.init, nodeAt, matchOrder,
      List.getD_cons_zero, List.getD_cons_succ, Player.name_node, Player.score_node,
      Player.left_node, Player.right_node] <;>
    split_ifs <;> simp [*]

theorem nodeAt_setName : ∀ (T : Player) (m : Path) (v : String),
    (T.nodeAt m).isNull = false →
    (T.setName m v).nodeAt m =
      node (T.nodeAt m).matchId (T.nodeAt m).score v (T.nodeAt m).left (T.nodeAt m).right
  | null, [], _, h => by simp [nodeAt] at h
  | null, _ :: _, _, h => by simp [nodeAt] at h
  | node i s n l r, [], v, _ => by simp [nodeAt, setName]
  | node i s n l r, L :: ps, v, h => by
    simpa [nodeAt, setName] using nodeAt_setName l ps v (by simpa [nodeAt] using h)
  | node i s n l r, R :: ps, v, h => by
    simpa [nodeAt, setName] using nodeAt_setName r ps v (by simpa [nodeAt] using h)

theorem nodeAt_setScore : ∀ (T : Player) (m : Path) (v : Int),
    (T.nodeAt m).isNull = false →
    (T.setScore m v).nodeAt m =
      node (T.nodeAt m).matchId v (T.nodeAt m).name (T.nodeAt m).left (T.nodeAt m).right
  | null, [], _, h => by simp [nodeAt] at h
  | null, _ :: _, _, h => by simp [nodeAt] at h
  | node i s n l r, [], v, _ => by simp [nodeAt, setScore]
  | node i s n l r, L :: ps, v, h => by
    simpa [nodeAt, setScore] using nodeAt_setScore l ps v (by simpa [nodeAt] using h)
  | node i s n l r, R :: ps, v, h => by
    simpa [nodeAt, setScore] using nodeAt_setScore r ps v (by simpa [nodeAt] using h)

/-- Claim C3: `playMatchRandom` on a match node with children `l`, `r` and drawn scores
`leftScore`, `rightScore` leaves the node with the name of `l` and the score `leftScore` when
`leftScore >= rightScore` (a tie goes to the left), with the name of `r` and the score
`rightScore` otherwise; `matchId` and children are untouched, and the recorded score is the
maximum of the two draws. -/
theorem playMatchRandom_winner (t : Tournament) (m : Path) (i s : Int) (n : String)
    (l r : Player) (hm : t.root.nodeAt m = node i s n l r) :
    let leftScore : Int := t.rng.draws t.rng.pos
    let rightScore : Int := t.rng.draws (t.rng.pos + 1)
    let played := (playMatchRandom t m).root.nodeAt m
    (leftScore ≥ rightScore → played = node i leftScore l.name l r) ∧
    (leftScore < rightScore → played = node i rightScore r.name l r) ∧
    played.score = max leftScore rightScore := by
  intro leftScore rightScore played
  have hnn : (t.root.nodeAt m).isNull = false := by rw [hm]; rfl
  have hL : leftScore ≥ rightScore → played = node i leftScore l.name l r := by
    intro hge
    have hge2 : ((t.rng.draws (t.rng.pos + 1) : Nat) : Int) ≤ (t.rng.draws t.rng.pos : Nat) := hge
    simp only [played, playMatchRandom, randomScore, Rng.next, ge_iff_le, hge2, if_true]
    rw [nodeAt_setScore _ _ _ (by rw [nodeAt_setName _ _ _ hnn]; rfl), nodeAt_setName _ _ _ hnn, hm]
    rfl
  have hR : leftScore < rightScore → played = node i rightScore r.name l r := by
    intro hlt
    have hlt2 : ¬ ((t.rng.draws (t.rng.pos + 1) : Nat) : Int) ≤ (t.rng.draws t.rng.pos : Nat) :=
      not_le.2 hlt
    simp only [played, playMatchRandom, randomScore, Rng.next, ge_iff_le, hlt2, if_false]
    rw [nodeAt_setScore _ _ _ (by rw [nodeAt_setName _ _ _ hnn]; rfl), nodeAt_setName _ _ _ hnn, hm]
    rfl
  refine ⟨hL, hR, ?_⟩
  rcases le_or_lt rightScore leftScore with hge | hlt
  · rw [hL hge]; simp [max_eq_left hge]
  · rw [hR hlt]; simp [max_eq_right hlt.le]

theorem scoresOk_match {g : Rng} (h : ScoresOk g) (k : Nat) (hk : k < 7) :
    (1 ≤ g.draws (g.pos + 7 + 2 * k) ∧ g.draws (g.pos + 7 + 2 * k) ≤ 10) ∧
    (1 ≤ g.draws (g.pos + 7 + 2 * k + 1) ∧ g.draws (g.pos + 7 + 2 * k + 1) ≤ 10) := by
  have h1 := h (2 * k) (by omega)
  have h2 := h (2 * k + 1) (by omega)
  exact ⟨h1, by simpa [Nat.add_assoc] using h2⟩

theorem play_names (f : Fields) (k : Nat) (a b : Int) : (f.play k a b).names = f.names := by
  unfold Fields.play
  split <;> simp only [Fields.names]

theorem stage_names (f : Fields) (g : Rng) :
    ∀ k, (f.stage k g).names = f.names
  | 0 => rfl
  | k + 1 => by
    simp only [Fields.stage, play_names]
    exact stage_names f g k

theorem stage_decided (f : Fields) (g : Rng) : (f.stage 7 g).Decided := by
  simp only [Fields.stage, Fields.play, Fields.Decided]
  refine ⟨?_, ?_, ?_, ?_, ?_, ?_, ?_⟩ <;> split_ifs <;> simp

theorem runTournament_tree (t : Tournament) (h : ShuffleOk t.rng) :
    ∃ f : Fields, (runTournament t).root = f.tree ∧ f.names.Perm roster ∧ f.Decided := by
  obtain ⟨n0, n1, n2, n3, n4, n5, n6, n7, hperm, hb⟩ := buildTournament_tree t h
  have hrun : runTournament t = playedUpTo 7 (buildTournament t) := rfl
  refine ⟨(Fields.init n0 n1 n2 n3 n4 n5 n6 n7).stage 7 ⟨t.rng.draws, t.rng.pos + 7⟩, ?_, ?_,
    stage_decided _ _⟩
  · rw [hrun, hb, playedUpTo_tree _ _ 7 (by omega)]
  · rw [stage_names]; exact hperm

/-- Claim C4: after a full simulation with draws in range, every match node has a score in
`[1, 10]` and a winner name that is the name of a leaf of its own subtree; in particular the score
at the root is positive and the name at the root is a roster name. -/
theorem simulated_scores_and_winners (t : Tournament) (h : ShuffleOk t.rng)
    (hs : ScoresOk t.rng) :
    (∀ k, k < 7 →
      let m := (runTournament t).root.nodeAt (matchOrder.getD k [])
      1 ≤ m.score ∧ m.score ≤ 10 ∧ m.name ∈ printPlayers m) ∧
    (runTournament t).root.score > 0 ∧ (runTournament t).root.name ∈ roster := by
  obtain ⟨n0, n1, n2, n3, n4, n5, n6, n7, hperm, hb⟩ := buildTournament_tree t h
  have hrun : runTournament t = playedUpTo 7 (buildTournament t) := rfl
  have hall : ∀ k, k < 7 →
      let m := (runTournament t).root.nodeAt (matchOrder.getD k [])
      1 ≤ m.score ∧ m.score ≤ 10 ∧ m.name ∈ printPlayers m := by
    intro k hk
    have hsk := scoresOk_match hs k hk
    rw [hrun, hb, playedUpTo_tree _ _ 7 (by omega)]
    interval_cases k <;>
      simp only [Fields.stage, Fields.play, Fields.tree, Fields.init, nodeAt, matchOrder,
        List.getD_cons_zero, List.getD_cons_succ, Player.name_node, Player.score_node,
        printPlayers, Player.isNull_node, Player.isNull_null, Bool.and_self, Bool.and_false,
        Bool.false_and, if_true, if_false, Bool.false_eq_true, List.cons_append,
        List.nil_append] <;>
      refine ⟨?_, ?_, ?_⟩ <;> split_ifs <;> first | omega | simp
  refine ⟨hall, ?_, ?_⟩
  · have := (hall 6 (by omega)).1
    simp only [matchOrder, List.getD_cons_zero, List.getD_cons_succ, List.getD_nil, nodeAt] at this
    omega
  · have := (hall 6 (by omega)).2.2
    simp only [matchOrder, List.getD_cons_zero, List.getD_cons_succ, List.getD_nil, nodeAt] at this
    have hpp : printPlayers (runTournament t).root = [n0, n1, n2, n3, n4, n5, n6, n7] := by
      rw [hrun, hb, playedUpTo_tree _ _ 7 (by omega)]; rfl
    rw [hpp] at this
    exact hperm.subset this

theorem collect_not_found : ∀ (T : Player) (name : String) (path : List Int),
    name ∉ printPlayers T → collectTheoreticalPath T name path = (false, path)
  | null, _, _, _ => rfl
  | node i s n l r, name, path, h => by
    unfold printPlayers at h
    unfold collectTheoreticalPath
    split at h
    · rename_i hleaf
      simp only [List.mem_singleton] at h
      simp [hleaf, Ne.symm h]
    · rename_i hleaf
      simp only [List.mem_append, not_or] at h
      simp [hleaf, collect_not_found l name path h.1, collect_not_found r name path h.2]

/-- Claim C7: in every state of the bracket, `pathToFinal` of a string that is the name of no leaf
is empty, whatever names the match nodes carry. -/
theorem pathToFinal_unknown_player (t : Tournament) (name : String)
    (h : name ∉ printPlayers t.root) : pathToFinal t name = [] := by
  simp [pathToFinal, collect_not_found _ _ _ h]

theorem decided_champion (f : Fields) (h : f.Decided) :
    (f.w7 = f.n0 ∧ f.w5 = f.n0 ∧ f.w1 = f.n0) ∨ (f.w7 = f.n1 ∧ f.w5 = f.n1 ∧ f.w1 = f.n1) ∨
    (f.w7 = f.n2 ∧ f.w5 = f.n2 ∧ f.w2 = f.n2) ∨ (f.w7 = f.n3 ∧ f.w5 = f.n3 ∧ f.w2 = f.n3) ∨
    (f.w7 = f.n4 ∧ f.w6 = f.n4 ∧ f.w3 = f.n4) ∨ (f.w7 = f.n5 ∧ f.w6 = f.n5 ∧ f.w3 = f.n5) ∨
    (f.w7 = f.n6 ∧ f.w6 = f.n6 ∧ f.w4 = f.n6) ∨ (f.w7 = f.n7 ∧ f.w6 = f.n7 ∧ f.w4 = f.n7) := by
  obtain ⟨h1, h2, h3, h4, h5, h6, h7⟩ := h
  rcases h7 with e7 | e7
  · rcases h5 with e5 | e5
    · rcases h1 with e1 | e1 <;> simp [e7, e5, e1]
    · rcases h2 with e2 | e2 <;> simp [e7, e5, e2]
  · rcases h6 with e6 | e6
    · rcases h3 with e3 | e3 <;> simp [e7, e6, e3]
    · rcases h4 with e4 | e4 <;> simp [e7, e6, e4]

/-- Claim C5: after a full simulation, the leaf of a roster player `p` lies at depth 3, below a
quarterfinal `q` and a semifinal `s`; the theoretical ladder is `[q, s, 7]`, and `pathToFinal p` is
`[q]` when the winner recorded on `q` is not `p`, `[q, s]` when `p` is recorded on `q` but not on
`s`, and `[q, s, 7]` otherwise. -/
theorem pathToFinal_stops_at_first_loss (t : Tournament) (h : ShuffleOk t.rng) (p : String)
    (hp : p ∈ roster) :
    ∃ a b c, findLeaf (runTournament t).root p = some [a, b, c] ∧
      collectTheoreticalPath (runTournament t).root p [] =
        (true, [((runTournament t).root.nodeAt [a, b]).matchId,
          ((runTournament t).root.nodeAt [a]).matchId, 7]) ∧
      pathToFinal (runTournament t) p =
        if ((runTournament t).root.nodeAt [a, b]).name ≠ p then
          [((runTournament t).root.nodeAt [a, b]).matchId]
        else if ((runTournament t).root.nodeAt [a]).name ≠ p then
          [((runTournament t).root.nodeAt [a, b]).matchId,
            ((runTournament t).root.nodeAt [a]).matchId]
        else
          [((runTournament t).root.nodeAt [a, b]).matchId,
            ((runTournament t).root.nodeAt [a]).matchId, 7] := by
  obtain ⟨f, hT, hperm, -⟩ := runTournament_tree t h
  rcases f with ⟨n0, n1, n2, n3, n4, n5, n6, n7, w1, w2, w3, w4, w5, w6, w7,
    s1, s2, s3, s4, s5, s6, s7⟩
  simp only [Fields.names] at hperm
  have hne := names_ne hperm
  have hp2 : p ∈ [n0, n1, n2, n3, n4, n5, n6, n7] := hperm.symm.subset hp
  simp only [ne_eq] at hne
  obtain ⟨⟨a1, a2, a3, a4, a5, a6, a7⟩, ⟨b0, b2, b3, b4, b5, b6, b7⟩, ⟨c0, c1, c3, c4, c5, c6, c7⟩,
    ⟨d0, d1, d2, d4, d5, d6, d7⟩, ⟨e0, e1, e2, e3, e5, e6, e7⟩, ⟨f0, f1, f2, f3, f4, f6, f7⟩,
    ⟨g0, g1, g2, g3, g4, g5, g7⟩, ⟨i0, i1, i2, i3, i4, i5, i6⟩⟩ := hne
  simp only [List.mem_cons, List.mem_singleton, List.not_mem_nil, or_false] at hp2
  simp only [pathToFinal, hT, Fields.tree]
  rcases hp2 with rfl | rfl | rfl | rfl | rfl | rfl | rfl | rfl
  · refine ⟨L, L, L, ?_, ?_, ?_⟩ <;>
      simp [findLeaf, collectTheoreticalPath, pathLoop, findMatchById, nodeAt, *]
  · refine ⟨L, L, R, ?_, ?_, ?_⟩ <;>
      simp [findLeaf, collectTheoreticalPath, pathLoop, findMatchById, nodeAt, *]
  · refine ⟨L, R, L, ?_, ?_, ?_⟩ <;>
      simp [findLeaf, collectTheoreticalPath, pathLoop, findMatchById, nodeAt, *]
  · refine ⟨L, R, R, ?_, ?_, ?_⟩ <;>
      simp [findLeaf, collectTheoreticalPath, pathLoop, findMatchById, nodeAt, *]
  · refine ⟨R, L, L, ?_, ?_, ?_⟩ <;>
      simp [findLeaf, collectTheoreticalPath, pathLoop, findMatchById, nodeAt, *]
  · refine ⟨R, L, R, ?_, ?_, ?_⟩ <;>
      simp [findLeaf, collectTheoreticalPath, pathLoop, findMatchById, nodeAt, *]
  · refine ⟨R, R, L, ?_, ?_, ?_⟩ <;>
      simp [findLeaf, collectTheoreticalPath, pathLoop, findMatchById, nodeAt, *]
  · refine ⟨R, R, R, ?_, ?_, ?_⟩ <;>
      simp [findLeaf, collectTheoreticalPath, pathLoop, findMatchById, nodeAt, *]

/-- Claim C6: after a full simulation, `pathToFinal` of the champion (the name at the root) has
length 3 and is `[q, s, 7]`, where `q` in 1..4 is the quarterfinal above the leaf of the champion
and `s`, the semifinal above it, is 5 when `q` is 1 or 2 and 6 when `q` is 3 or 4. -/
theorem pathToFinal_champion (t : Tournament) (h : ShuffleOk t.rng) :
    ∃ a b c, findLeaf (runTournament t).root (runTournament t).root.name = some [a, b, c] ∧
      pathToFinal (runTournament t) (runTournament t).root.name =
        [((runTournament t).root.nodeAt [a, b]).matchId,
          ((runTournament t).root.nodeAt [a]).matchId, 7] ∧
      (pathToFinal (runTournament t) (runTournament t).root.name).length = 3 ∧
      (((runTournament t).root.nodeAt [a, b]).matchId = 1 ∨
        ((runTournament t).root.nodeAt [a, b]).matchId = 2 ∨
        ((runTournament t).root.nodeAt [a, b]).matchId = 3 ∨
        ((runTournament t).root.nodeAt [a, b]).matchId = 4) ∧
      ((runTournament t).root.nodeAt [a]).matchId =
        (if ((runTournament t).root.nodeAt [a, b]).matchId = 1 ∨
            ((runTournament t).root.nodeAt [a, b]).matchId = 2 then 5 else 6) := by
  obtain ⟨f, hT, hperm, hdec⟩ := runTournament_tree t h
  have hch := decided_champion f hdec
  rcases f with ⟨n0, n1, n2, n3, n4, n5, n6, n7, w1, w2, w3, w4, w5, w6, w7,
    s1, s2, s3, s4, s5, s6, s7⟩
  simp only [Fields.names] at hperm
  have hne := names_ne hperm
  simp only [ne_eq] at hne
  obtain ⟨⟨a1, a2, a3, a4, a5, a6, a7⟩, ⟨b0, b2, b3, b4, b5, b6, b7⟩, ⟨c0, c1, c3, c4, c5, c6, c7⟩,
    ⟨d0, d1, d2, d4, d5, d6, d7⟩, ⟨e0, e1, e2, e3, e5, e6, e7⟩, ⟨f0, f1, f2, f3, f4, f6, f7⟩,
    ⟨g0, g1, g2, g3, g4, g5, g7⟩, ⟨i0, i1, i2, i3, i4, i5, i6⟩⟩ := hne
  simp only [pathToFinal, hT, Fields.tree, Player.name_node]
  simp only at hch
  rcases hch with ⟨x, y, z⟩ | ⟨x, y, z⟩ | ⟨x, y, z⟩ | ⟨x, y, z⟩ | ⟨x, y, z⟩ | ⟨x, y, z⟩ |
    ⟨x, y, z⟩ | ⟨x, y, z⟩
  · refine ⟨L, L, L, ?_, ?_, ?_, ?_, ?_⟩ <;>
      simp [findLeaf, collectTheoreticalPath, pathLoop, findMatchById, nodeAt, *]
  · refine ⟨L, L, R, ?_, ?_, ?_, ?_, ?_⟩ <;>
      simp [findLeaf, collectTheoreticalPath, pathLoop, findMatchById, nodeAt, *]
  · refine ⟨L, R, L, ?_, ?_, ?_, ?_, ?_⟩ <;>
      simp [findLeaf, collectTheoreticalPath, pathLoop, findMatchById, nodeAt, *]
  · refine ⟨L, R, R, ?_, ?_, ?_, ?_, ?_⟩ <;>
      simp [findLeaf, collectTheoreticalPath, pathLoop, findMatchById, nodeAt, *]
  · refine ⟨R, L, L, ?_, ?_, ?_, ?_, ?_⟩ <;>
      simp [findLeaf, collectTheoreticalPath, pathLoop, findMatchById, nodeAt, *]
  · refine ⟨R, L, R, ?_, ?_, ?_, ?_, ?_⟩ <;>
      simp [findLeaf, collectTheoreticalPath, pathLoop, findMatchById, nodeAt, *]
  · refine ⟨R, R, L, ?_, ?_, ?_, ?_, ?_⟩ <;>
      simp [findLeaf, collectTheoreticalPath, pathLoop, findMatchById, nodeAt, *]
  · refine ⟨R, R, R, ?_, ?_, ?_, ?_, ?_⟩ <;>
      simp [findLeaf, collectTheoreticalPath, pathLoop, findMatchById, nodeAt, *]

theorem playedUpTo_build_tree (t : Tournament) (h : ShuffleOk t.rng) (k : Nat) (hk : k ≤ 7) :
    ∃ f : Fields, (playedUpTo k (buildTournament t)).root = f.tree ∧ f.names.Perm roster := by
  obtain ⟨n0, n1, n2, n3, n4, n5, n6, n7, hperm, hb⟩ := buildTournament_tree t h
  refine ⟨(Fields.init n0 n1 n2 n3 n4 n5 n6 n7).stage k ⟨t.rng.draws, t.rng.pos + 7⟩, ?_, ?_⟩
  · rw [hb, playedUpTo_tree _ _ k hk]
  · rw [stage_names]; exact hperm

theorem findLeaf_not_found : ∀ (T : Player) (name : String),
    name ∉ printPlayers T → findLeaf T name = none
  | null, _, _ => rfl
  | node i s n l r, name, h => by
    unfold printPlayers at h
    unfold findLeaf
    split at h
    · rename_i hleaf
      simp only [List.mem_singleton] at h
      simp [hleaf, Ne.symm h]
    · rename_i hleaf
      simp only [List.mem_append, not_or] at h
      simp [hleaf, findLeaf_not_found l name h.1, findLeaf_not_found r name h.2]

theorem printPlayers_tree (f : Fields) : printPlayers f.tree = f.names := rfl

set_option maxHeartbeats 4000000 in
theorem wouldMeet_slots (T : Tournament) (f : Fields) (hT : T.root = f.tree)
    (hperm : f.names.Perm roster) (i j : Nat) (hi : i < 8) (hj : j < 8) :
    wouldMeet T (f.names.getD i "") (f.names.getD j "") =
      if i = j then (-1, -1)
      else if i / 2 = j / 2 then (((i / 2 + 1 : Nat) : Int), 1)
      else if i / 4 = j / 4 then (((5 + i / 4 : Nat) : Int), 2)
      else (7, 3) := by
  rcases f with ⟨n0, n1, n2, n3, n4, n5, n6, n7, w1, w2, w3, w4, w5, w6, w7,
    s1, s2, s3, s4, s5, s6, s7⟩
  simp only [Fields.names] at hperm
  have hne := names_ne hperm
  simp only [ne_eq] at hne
  obtain ⟨⟨a1, a2, a3, a4, a5, a6, a7⟩, ⟨b0, b2, b3, b4, b5, b6, b7⟩, ⟨c0, c1, c3, c4, c5, c6, c7⟩,
    ⟨d0, d1, d2, d4, d5, d6, d7⟩, ⟨e0, e1, e2, e3, e5, e6, e7⟩, ⟨f0, f1, f2, f3, f4, f6, f7⟩,
    ⟨g0, g1, g2, g3, g4, g5, g7⟩, ⟨i0, i1, i2, i3, i4, i5, i6⟩⟩ := hne
  simp only [wouldMeet, hT, Fields.tree, Fields.names]
  interval_cases i <;> interval_cases j <;>
    simp [findLeaf, lca, nodeAt, height, *]

theorem slot_of_mem (l : List String) (p : String) (hp : p ∈ l) :
    l.indexOf p < l.length ∧ l.getD (l.indexOf p) "" = p := by
  have hlt : l.indexOf p < l.length := List.indexOf_lt_length.2 hp
  refine ⟨hlt, ?_⟩
  rw [List.getD_eq_getElem _ _ hlt]
  exact List.getElem_indexOf hlt

/-- Claim C8: in the built bracket and in every later state of the simulation, for two distinct
roster players seated at slots `i` and `j` (positions among the leaves, left to right, from 0),
`wouldMeet` is `(i / 2 + 1, 1)` when they share a quarterfinal, `(5 + i / 4, 2)` when they share
only a semifinal (5 for QF1 and QF2, 6 for QF3 and QF4), and `(7, 3)` otherwise. -/
theorem wouldMeet_lowest_common_match (t : Tournament) (h : ShuffleOk t.rng) (k : Nat)
    (hk : k ≤ 7) (p1 p2 : String) (h1 : p1 ∈ roster) (h2 : p2 ∈ roster) (h12 : p1 ≠ p2) :
    wouldMeet (playedUpTo k (buildTournament t)) p1 p2 =
      if (printPlayers (playedUpTo k (buildTournament t)).root).indexOf p1 / 2 =
          (printPlayers (playedUpTo k (buildTournament t)).root).indexOf p2 / 2 then
        ((((printPlayers (playedUpTo k (buildTournament t)).root).indexOf p1 / 2 + 1 : Nat) : Int), 1)
      else if (printPlayers (playedUpTo k (buildTournament t)).root).indexOf p1 / 4 =
          (printPlayers (playedUpTo k (buildTournament t)).root).indexOf p2 / 4 then
        (((5 + (printPlayers (playedUpTo k (buildTournament t)).root).indexOf p1 / 4 : Nat) : Int), 2)
      else (7, 3) := by
  obtain ⟨f, hT, hperm⟩ := playedUpTo_build_tree t h k hk
  have hlen : f.names.length = 8 := hperm.length_eq
  obtain ⟨hi, hgi⟩ := slot_of_mem f.names p1 (hperm.symm.subset h1)
  obtain ⟨hj, hgj⟩ := slot_of_mem f.names p2 (hperm.symm.subset h2)
  have hij : f.names.indexOf p1 ≠ f.names.indexOf p2 := by
    intro heq
    rw [heq, hgj] at hgi
    exact h12 hgi.symm
  have hs := wouldMeet_slots _ f hT hperm _ _ (hlen ▸ hi) (hlen ▸ hj)
  rw [hgi, hgj, if_neg hij] at hs
  rw [hT, printPlayers_tree]
  exact hs

/-- Claim C9: in the built bracket and in every later state of the simulation, `wouldMeet p1 p2`
is the sentinel `(-1, -1)` exactly when `p1` is no leaf name, or `p2` is no leaf name, or
`p1 = p2`. -/
theorem wouldMeet_sentinel_iff (t : Tournament) (h : ShuffleOk t.rng) (k : Nat) (hk : k ≤ 7)
    (p1 p2 : String) :
    wouldMeet (playedUpTo k (buildTournament t)) p1 p2 = (-1, -1) ↔
      (p1 ∉ printPlayers (playedUpTo k (buildTournament t)).root ∨
        p2 ∉ printPlayers (playedUpTo k (buildTournament t)).root ∨ p1 = p2) := by
  obtain ⟨f, hT, hperm⟩ := playedUpTo_build_tree t h k hk
  have hlen : f.names.length = 8 := hperm.length_eq
  have hpp : printPlayers (playedUpTo k (buildTournament t)).root = f.names := by
    rw [hT, printPlayers_tree]
  rw [hpp]
  by_cases m1 : p1 ∈ f.names
  · by_cases m2 : p2 ∈ f.names
    · obtain ⟨hi, hgi⟩ := slot_of_mem f.names p1 m1
      obtain ⟨hj, hgj⟩ := slot_of_mem f.names p2 m2
      have hs := wouldMeet_slots _ f hT hperm _ _ (hlen ▸ hi) (hlen ▸ hj)
      rw [hgi, hgj] at hs
      rw [hs]
      by_cases hij : f.names.indexOf p1 = f.names.indexOf p2
      · have : p1 = p2 := by rw [← hgi, ← hgj, hij]
        simp [hij, this]
      · have hne : p1 ≠ p2 := fun e => hij (by rw [e])
        rw [if_neg hij]
        constructor
        · intro hv
          exfalso
          split_ifs at hv <;> simp [Prod.ext_iff] at hv
        · rintro (x | x | x)
          · exact absurd m1 x
          · exact absurd m2 x
          · exact absurd x hne
    · have : findLeaf (playedUpTo k (buildTournament t)).root p2 = none :=
        findLeaf_not_found _ _ (by rw [hpp]; exact m2)
      have hw : wouldMeet (playedUpTo k (buildTournament t)) p1 p2 = (-1, -1) := by
        unfold wouldMeet
        rw [this]
        split
        · rename_i heq
          simp at heq
        · rfl
      simp [hw, m2]
  · have : findLeaf (playedUpTo k (buildTournament t)).root p1 = none :=
      findLeaf_not_found _ _ (by rw [hpp]; exact m1)
    have hw : wouldMeet (playedUpTo k (buildTournament t)) p1 p2 = (-1, -1) := by
      unfold wouldMeet
      rw [this]
    simp [hw, m1]

theorem ne_of_or {w a b x : String} (h : w = a ∨ w = b) (ha : ¬a = x) (hb : ¬b = x) :
    ¬w = x := by
  rcases h with e | e <;> rw [e] <;> assumption

theorem decided_no_win (f : Fields) (h : f.Decided) (name : String)
    (h1 : ¬f.w1 = name) (h2 : ¬f.w2 = name) (h3 : ¬f.w3 = name) (h4 : ¬f.w4 = name) :
    (f.w1 ≠ name ∧ f.w2 ≠ name ∧ f.w3 ≠ name ∧ f.w4 ≠ name) ∧
      f.w5 ≠ name ∧ f.w6 ≠ name ∧ f.w7 ≠ name := by
  obtain ⟨-, -, -, -, d5, d6, d7⟩ := h
  have h5 := ne_of_or d5 h1 h2
  have h6 := ne_of_or d6 h3 h4
  exact ⟨⟨h1, h2, h3, h4⟩, h5, h6, ne_of_or d7 h5 h6⟩

/-- The three rounds are the prefixes 4, 6 and 7 of the playing order. -/
theorem runTournament_eq_playedUpTo (t : Tournament) :
    playRound1 (buildTournament t) = playedUpTo 4 (buildTournament t) ∧
    playRound2 (playRound1 (buildTournament t)) = playedUpTo 6 (buildTournament t) ∧
    runTournament t = playedUpTo 7 (buildTournament t) :=
  ⟨rfl, rfl, rfl⟩

/-! ## The theorems at the sample run -/

theorem buildTournament_seeds_roster_witness :
    ShuffleOk sampleTournament.rng ∧
    printPlayers (buildTournament sampleTournament).root =
      ["Henry", "Frank", "Alice", "Carol", "Grace", "Eva", "Bob", "David"] ∧
    ((printPlayers (buildTournament sampleTournament).root).Perm roster ∧
      (∀ n ∈ roster, ∃ p, findLeaf (buildTournament sampleTournament).root n = some p ∧
        ((buildTournament sampleTournament).root.nodeAt p).isLeaf = true ∧
        ((buildTournament sampleTournament).root.nodeAt p).name = n) ∧
      (∀ n ∈ roster, ∀ m ∈ roster, n ≠ m →
        findLeaf (buildTournament sampleTournament).root n ≠
          findLeaf (buildTournament sampleTournament).root m)) :=
  ⟨by decide, by decide, buildTournament_seeds_roster sampleTournament (by decide)⟩

theorem match_winner_is_one_child_witness :
    ShuffleOk sampleTournament.rng ∧ 4 < 7 ∧
    ((runTournament sampleTournament).root.nodeAt [L]).name = "Henry" ∧
    (let before := playedUpTo 4 (buildTournament sampleTournament)
     let m := matchOrder.getD 4 []
     let played := before.root.nodeAt m
     let final := (runTournament sampleTournament).root.nodeAt m
     let leftScore : Int := before.rng.draws before.rng.pos
     let rightScore : Int := before.rng.draws (before.rng.pos + 1)
     (final.name = played.left.name ∧ final.name ≠ played.right.name ∧
        final.score = leftScore) ∨
      (final.name = played.right.name ∧ final.name ≠ played.left.name ∧
        final.score = rightScore)) :=
  ⟨by decide, by decide, by decide,
    match_winner_is_one_child sampleTournament (by decide) 4 (by decide)⟩

theorem playMatchRandom_winner_witness :
    (buildTournament sampleTournament).root.nodeAt [L, L] =
      node 1 0 "QF1 TBD" (createNode 0 0 "Henry") (createNode 0 0 "Frank") ∧
    (let t := buildTournament sampleTournament
     let leftScore : Int := t.rng.draws t.rng.pos
     let rightScore : Int := t.rng.draws (t.rng.pos + 1)
     let played := (playMatchRandom t [L, L]).root.nodeAt [L, L]
     (leftScore ≥ rightScore →
        played = node 1 leftScore (createNode 0 0 "Henry").name (createNode 0 0 "Henry")
          (createNode 0 0 "Frank")) ∧
      (leftScore < rightScore →
        played = node 1 rightScore (createNode 0 0 "Frank").name (createNode 0 0 "Henry")
          (createNode 0 0 "Frank")) ∧
      played.score = max leftScore rightScore) :=
  ⟨by decide,
    playMatchRandom_winner (buildTournament sampleTournament) [L, L] 1 0 "QF1 TBD"
      (createNode 0 0 "Henry") (createNode 0 0 "Frank") (by decide)⟩

theorem simulated_scores_and_winners_witness :
    ShuffleOk sampleTournament.rng ∧ ScoresOk sampleTournament.rng ∧
    ((∀ k, k < 7 →
        let m := (runTournament sampleTournament).root.nodeAt (matchOrder.getD k [])
        1 ≤ m.score ∧ m.score ≤ 10 ∧ m.name ∈ printPlayers m) ∧
      (runTournament sampleTournament).root.score > 0 ∧
      (runTournament sampleTournament).root.name ∈ roster) :=
  ⟨by decide, by decide, simulated_scores_and_winners sampleTournament (by decide) (by decide)⟩

theorem pathToFinal_stops_at_first_loss_witness :
    ShuffleOk sampleTournament.rng ∧ "Carol" ∈ roster ∧
    pathToFinal (runTournament sampleTournament) "Carol" = [2, 5] ∧
    (∃ a b c, findLeaf (runTournament sampleTournament).root "Carol" = some [a, b, c] ∧
      collectTheoreticalPath (runTournament sampleTournament).root "Carol" [] =
        (true, [((runTournament sampleTournament).root.nodeAt [a, b]).matchId,
          ((runTournament sampleTournament).root.nodeAt [a]).matchId, 7]) ∧
      pathToFinal (runTournament sampleTournament) "Carol" =
        if ((runTournament sampleTournament).root.nodeAt [a, b]).name ≠ "Carol" then
          [((runTournament sampleTournament).root.nodeAt [a, b]).matchId]
        else if ((runTournament sampleTournament).root.nodeAt [a]).name ≠ "Carol" then
          [((runTournament sampleTournament).root.nodeAt [a, b]).matchId,
            ((runTournament sampleTournament).root.nodeAt [a]).matchId]
        else
          [((runTournament sampleTournament).root.nodeAt [a, b]).matchId,
            ((runTournament sampleTournament).root.nodeAt [a]).matchId, 7]) :=
  ⟨by decide, by decide, by decide,
    pathToFinal_stops_at_first_loss sampleTournament (by decide) "Carol" (by decide)⟩

theorem pathToFinal_champion_witness :
    ShuffleOk sampleTournament.rng ∧
    (runTournament sampleTournament).root.name = "David" ∧
    pathToFinal (runTournament sampleTournament) "David" = [4, 6, 7] ∧
    (∃ a b c,
      findLeaf (runTournament sampleTournament).root (runTournament sampleTournament).root.name =
        some [a, b, c] ∧
      pathToFinal (runTournament sampleTournament) (runTournament sampleTournament).root.name =
        [((runTournament sampleTournament).root.nodeAt [a, b]).matchId,
          ((runTournament sampleTournament).root.nodeAt [a]).matchId, 7] ∧
      (pathToFinal (runTournament sampleTournament)
        (runTournament sampleTournament).root.name).length = 3 ∧
      (((runTournament sampleTournament).root.nodeAt [a, b]).matchId = 1 ∨
        ((runTournament sampleTournament).root.nodeAt [a, b]).matchId = 2 ∨
        ((runTournament sampleTournament).root.nodeAt [a, b]).matchId = 3 ∨
        ((runTournament sampleTournament).root.nodeAt [a, b]).matchId = 4) ∧
      ((runTournament sampleTournament).root.nodeAt [a]).matchId =
        (if ((runTournament sampleTournament).root.nodeAt [a, b]).matchId = 1 ∨
            ((runTournament sampleTournament).root.nodeAt [a, b]).matchId = 2 then 5 else 6)) :=
  ⟨by decide, by decide, by decide, pathToFinal_champion sampleTournament (by decide)⟩

theorem pathToFinal_unknown_player_witness :
    ("QF1 TBD" ∉ printPlayers (buildTournament sampleTournament).root ∧
      pathToFinal (buildTournament sampleTournament) "QF1 TBD" = []) ∧
    ("NoSuchPlayer" ∉ printPlayers (runTournament sampleTournament).root ∧
      pathToFinal (runTournament sampleTournament) "NoSuchPlayer" = []) :=
  ⟨⟨by decide, pathToFinal_unknown_player (buildTournament sampleTournament) "QF1 TBD" (by decide)⟩,
    ⟨by decide,
      pathToFinal_unknown_player (runTournament sampleTournament) "NoSuchPlayer" (by decide)⟩⟩

theorem wouldMeet_lowest_common_match_witness :
    ShuffleOk sampleTournament.rng ∧ 7 ≤ 7 ∧ "Alice" ∈ roster ∧ "Carol" ∈ roster ∧
    "Alice" ≠ "Carol" ∧
    (printPlayers (playedUpTo 7 (buildTournament sampleTournament)).root).indexOf "Alice" = 2 ∧
    (printPlayers (playedUpTo 7 (buildTournament sampleTournament)).root).indexOf "Carol" = 3 ∧
    wouldMeet (playedUpTo 7 (buildTournament sampleTournament)) "Alice" "Carol" =
      (if (printPlayers (playedUpTo 7 (buildTournament sampleTournament)).root).indexOf "Alice" / 2 =
          (printPlayers (playedUpTo 7 (buildTournament sampleTournament)).root).indexOf "Carol" / 2
        then
          ((((printPlayers (playedUpTo 7 (buildTournament sampleTournament)).root).indexOf "Alice"
            / 2 + 1 : Nat) : Int), 1)
        else if
          (printPlayers (playedUpTo 7 (buildTournament sampleTournament)).root).indexOf "Alice" / 4 =
          (printPlayers (playedUpTo 7 (buildTournament sampleTournament)).root).indexOf "Carol" / 4
        then
          (((5 + (printPlayers (playedUpTo 7 (buildTournament sampleTournament)).root).indexOf
            "Alice" / 4 : Nat) : Int), 2)
        else (7, 3)) :=
  ⟨by decide, by decide, by decide, by decide, by decide, by decide, by decide,
    wouldMeet_lowest_common_match sampleTournament (by decide) 7 (by decide) "Alice" "Carol"
      (by decide) (by decide) (by decide)⟩

theorem wouldMeet_sentinel_iff_witness :
    ShuffleOk sampleTournament.rng ∧ 0 ≤ 7 ∧
    (wouldMeet (playedUpTo 0 (buildTournament sampleTournament)) "Alice" "Alice" = (-1, -1) ↔
      ("Alice" ∉ printPlayers (playedUpTo 0 (buildTournament sampleTournament)).root ∨
        "Alice" ∉ printPlayers (playedUpTo 0 (buildTournament sampleTournament)).root ∨
        "Alice" = "Alice")) :=
  ⟨by decide, by decide,
    wouldMeet_sentinel_iff sampleTournament (by decide) 0 (by decide) "Alice" "Alice"⟩

theorem shuffleLoop_rng {α : Type} [Inhabited α] :
    ∀ (i : Nat) (vec : List α) (g : Rng), (shuffleLoop i vec g).2 = ⟨g.draws, g.pos + i⟩
  | 0, _, _ => rfl
  | i + 1, vec, g => by
    simp only [shuffleLoop, Rng.next]
    rw [shuffleLoop_rng i]
    simp only [Rng.mk.injEq, true_and]
    omega

theorem buildTournament_shape (t : Tournament) :
    ∃ n0 n1 n2 n3 n4 n5 n6 n7 : String,
      buildTournament t =
        ⟨(Fields.init n0 n1 n2 n3 n4 n5 n6 n7).tree, ⟨t.rng.draws, t.rng.pos + 7⟩⟩ := by
  refine ⟨(shuffleLoop 7 roster t.rng).1[0]!, (shuffleLoop 7 roster t.rng).1[1]!,
    (shuffleLoop 7 roster t.rng).1[2]!, (shuffleLoop 7 roster t.rng).1[3]!,
    (shuffleLoop 7 roster t.rng).1[4]!, (shuffleLoop 7 roster t.rng).1[5]!,
    (shuffleLoop 7 roster t.rng).1[6]!, (shuffleLoop 7 roster t.rng).1[7]!, ?_⟩
  rw [← shuffleLoop_rng 7 roster t.rng]
  simp only [buildTournament, shuffleVector, createNode, assign, Fields.tree, Fields.init,
    roster, List.length_cons, List.length_nil, Nat.reduceAdd, Nat.add_one_sub_one]

theorem playedUpTo_shape (t : Tournament) (k : Nat) (hk : k ≤ 7) :
    ∃ n0 n1 n2 n3 n4 n5 n6 n7 : String,
      buildTournament t =
        ⟨(Fields.init n0 n1 n2 n3 n4 n5 n6 n7).tree, ⟨t.rng.draws, t.rng.pos + 7⟩⟩ ∧
      playedUpTo k (buildTournament t) =
        ⟨((Fields.init n0 n1 n2 n3 n4 n5 n6 n7).stage k ⟨t.rng.draws, t.rng.pos + 7⟩).tree,
          ⟨t.rng.draws, t.rng.pos + 7 + 2 * k⟩⟩ := by
  obtain ⟨n0, n1, n2, n3, n4, n5, n6, n7, hb⟩ := buildTournament_shape t
  refine ⟨n0, n1, n2, n3, n4, n5, n6, n7, hb, ?_⟩
  rw [hb, playedUpTo_tree _ _ k hk]

/-- Claim C11, the code at a failing input: in the run `aliceTournament` the slot order is Bob,
Alice, ..., Alice wins QF1 with score 8 and then SF1 with score 9, and `findMatchByName` for
Alice returns the SF1 node (`matchId` 5, score 9), not the QF1 node. -/
theorem findMatchByName_alice_returns_semifinal :
    ShuffleOk aliceTournament.rng ∧ ScoresOk aliceTournament.rng ∧
    printPlayers (buildTournament aliceTournament).root =
      ["Bob", "Alice", "Carol", "David", "Eva", "Frank", "Grace", "Henry"] ∧
    (runTournament aliceTournament).root.nodeAt [L, L] =
      node 1 8 "Alice" (createNode 0 0 "Bob") (createNode 0 0 "Alice") ∧
    findMatchByName (runTournament aliceTournament).root "Alice" = some [L] ∧
    ((runTournament aliceTournament).root.nodeAt [L]).matchId = 5 ∧
    ((runTournament aliceTournament).root.nodeAt [L]).score = 9 ∧
    findMatchByName (runTournament aliceTournament).root "Alice" ≠ some [L, L] := by
  decide

theorem findMatchById_tree (f : Fields) (id : Int) :
    findMatchById f.tree id =
      if id = 7 then some []
      else if id = 5 then some [L]
      else if id = 1 then some [L, L]
      else if id = 0 then some [L, L, L]
      else if id = 2 then some [L, R]
      else if id = 6 then some [R]
      else if id = 3 then some [R, L]
      else if id = 4 then some [R, R]
      else none := by
  simp only [Fields.tree, findMatchById]
  by_cases h7 : id = 7
  · subst h7; simp
  by_cases h5 : id = 5
  · subst h5; simp
  by_cases h1 : id = 1
  · subst h1; simp
  by_cases h0 : id = 0
  · subst h0; simp
  by_cases h2 : id = 2
  · subst h2; simp
  by_cases h6 : id = 6
  · subst h6; simp
  by_cases h3 : id = 3
  · subst h3; simp
  by_cases h4 : id = 4
  · subst h4; simp
  simp [h7, h5, h1, h0, h2, h6, h3, h4, Ne.symm h7, Ne.symm h5, Ne.symm h1, Ne.symm h0,
    Ne.symm h2, Ne.symm h6, Ne.symm h3, Ne.symm h4]

/-- Claim C12, the code at the failing input `id = 0`: on every built bracket `findMatchById` with
id 0 returns the leaf of slot 0 (a node without children, `matchId` 0) instead of not found.  For
every other id the result is either not found or a node with two children and that `matchId`,
and not found is returned exactly for the ids below 0 or above 7. -/
theorem findMatchById_zero_returns_leaf (t : Tournament) :
    findMatchById (buildTournament t).root 0 = some [L, L, L] ∧
    ((buildTournament t).root.nodeAt [L, L, L]).isLeaf = true ∧
    ((buildTournament t).root.nodeAt [L, L, L]).matchId = 0 ∧
    (∀ id : Int, id ≠ 0 →
      findMatchById (buildTournament t).root id = none ∨
      ∃ p, findMatchById (buildTournament t).root id = some p ∧
        ((buildTournament t).root.nodeAt p).matchId = id ∧
        ((buildTournament t).root.nodeAt p).left.isNull = false ∧
        ((buildTournament t).root.nodeAt p).right.isNull = false) ∧
    (∀ id : Int, findMatchById (buildTournament t).root id = none ↔ (id < 0 ∨ 7 < id)) := by
  obtain ⟨n0, n1, n2, n3, n4, n5, n6, n7, hb⟩ := buildTournament_shape t
  rw [hb]
  simp only [findMatchById_tree]
  refine ⟨by simp, by simp [Fields.tree, nodeAt, Player.isLeaf], by simp [Fields.tree, nodeAt],
    ?_, ?_⟩
  · intro id h0
    split_ifs <;> simp [Fields.tree, nodeAt, *]
  · intro id
    split_ifs <;> first | (simp [*]; done) | (simp [*]; omega)

theorem findLeaf_eq_first : ∀ (T : Player) (name : String),
    findLeaf T name = firstLeafNamed T name
  | null, _ => rfl
  | node i s n l r, name => by
    have hl := findLeaf_eq_first l name
    have hr := findLeaf_eq_first r name
    unfold firstLeafNamed at hl hr ⊢
    unfold findLeaf leafPaths
    split
    · by_cases hn : n = name <;> simp [nodeAt, hn]
    · rw [List.find?_append, List.find?_map, List.find?_map, hl, hr]
      have e1 : ((fun p => decide (((node i s n l r).nodeAt p).name = name)) ∘ fun p => L :: p) =
          fun p => decide ((l.nodeAt p).name = name) := rfl
      have e2 : ((fun p => decide (((node i s n l r).nodeAt p).name = name)) ∘ fun p => R :: p) =
          fun p => decide ((r.nodeAt p).name = name) := rfl
      rw [e1, e2]
      cases List.find? (fun p => decide ((l.nodeAt p).name = name)) (leafPaths l) with
      | some q => rfl
      | none =>
        cases List.find? (fun p => decide ((r.nodeAt p).name = name)) (leafPaths r) with
        | some q => rfl
        | none => rfl

theorem findLeaf_tree_names (f f2 : Fields) (h : f.names = f2.names) (name : String) :
    findLeaf f.tree name = findLeaf f2.tree name := by
  rcases f with ⟨n0, n1, n2, n3, n4, n5, n6, n7, w1, w2, w3, w4, w5, w6, w7,
    s1, s2, s3, s4, s5, s6, s7⟩
  rcases f2 with ⟨m0, m1, m2, m3, m4, m5, m6, m7, v1, v2, v3, v4, v5, v6, v7,
    r1, r2, r3, r4, r5, r6, r7⟩
  simp only [Fields.names, List.cons.injEq, and_true] at h
  obtain ⟨rfl, rfl, rfl, rfl, rfl, rfl, rfl, rfl⟩ := h
  simp [Fields.tree, findLeaf]

theorem findLeaf_tree (f : Fields) (name : String) :
    findLeaf f.tree name =
      if f.n0 = name then some [L, L, L]
      else if f.n1 = name then some [L, L, R]
      else if f.n2 = name then some [L, R, L]
      else if f.n3 = name then some [L, R, R]
      else if f.n4 = name then some [R, L, L]
      else if f.n5 = name then some [R, L, R]
      else if f.n6 = name then some [R, R, L]
      else if f.n7 = name then some [R, R, R]
      else none := by
  simp only [Fields.tree, findLeaf, Player.isNull_node, Player.isNull_null, Bool.and_self,
    Bool.and_false, Bool.false_and, if_true, if_false, Bool.false_eq_true]
  by_cases h0 : f.n0 = name
  · simp [h0]
  by_cases h1 : f.n1 = name
  · simp [h0, h1]
  by_cases h2 : f.n2 = name
  · simp [h0, h1, h2]
  by_cases h3 : f.n3 = name
  · simp [h0, h1, h2, h3]
  by_cases h4 : f.n4 = name
  · simp [h0, h1, h2, h3, h4]
  by_cases h5 : f.n5 = name
  · simp [h0, h1, h2, h3, h4, h5]
  by_cases h6 : f.n6 = name
  · simp [h0, h1, h2, h3, h4, h5, h6]
  by_cases h7 : f.n7 = name
  · simp [h0, h1, h2, h3, h4, h5, h6, h7]
  simp [h0, h1, h2, h3, h4, h5, h6, h7]

theorem findLeaf_tree_depth (f : Fields) (name : String) (p : Path)
    (h : findLeaf f.tree name = some p) : ∃ a b c, p = [a, b, c] := by
  rw [findLeaf_tree] at h
  split_ifs at h <;>
    (simp only [Option.some.injEq] at h; subst h; exact ⟨_, _, _, rfl⟩)

theorem runTournament_decided (t : Tournament) :
    ∃ f : Fields, (runTournament t).root = f.tree ∧ f.Decided ∧
      ∃ f0 : Fields, (buildTournament t).root = f0.tree ∧ f0.names = f.names := by
  obtain ⟨n0, n1, n2, n3, n4, n5, n6, n7, hb, hp⟩ := playedUpTo_shape t 7 (by omega)
  have hrun : runTournament t = playedUpTo 7 (buildTournament t) := rfl
  refine ⟨_, by rw [hrun, hp], stage_decided _ _, _, by rw [hb], ?_⟩
  rw [stage_names]

/-- Claim C13: on every tree `findLeaf` returns the first leaf, left before right, whose name is
the query, or not found; what it returns is a node without children that carries the queried
name.  The simulation does not change what `findLeaf` returns, and after a full simulation
`findLeaf` of the champion is a leaf at depth 3 with `matchId` 0, none of the seven match nodes,
and the very node that was there after `buildTournament`. -/
theorem findLeaf_returns_first_leaf (t : Tournament) :
    (∀ (T : Player) (name : String), findLeaf T name = firstLeafNamed T name) ∧
    (∀ (T : Player) (name : String) (p : Path), findLeaf T name = some p →
      (T.nodeAt p).isLeaf = true ∧ (T.nodeAt p).name = name) ∧
    (∀ name : String,
      findLeaf (runTournament t).root name = findLeaf (buildTournament t).root name) ∧
    (∃ a b c,
      findLeaf (runTournament t).root (runTournament t).root.name = some [a, b, c] ∧
      ((runTournament t).root.nodeAt [a, b, c]).isLeaf = true ∧
      ((runTournament t).root.nodeAt [a, b, c]).matchId = 0 ∧
      ((runTournament t).root.nodeAt [a, b, c]).name = (runTournament t).root.name ∧
      [a, b, c] ∉ matchOrder ∧
      (runTournament t).root.nodeAt [a, b, c] = (buildTournament t).root.nodeAt [a, b, c]) := by
  obtain ⟨f, hT, hdec, f0, hB, hnames⟩ := runTournament_decided t
  have hsame : ∀ name : String,
      findLeaf (runTournament t).root name = findLeaf (buildTournament t).root name := by
    intro name
    rw [hT, hB]
    exact findLeaf_tree_names _ _ hnames.symm name
  refine ⟨findLeaf_eq_first, findLeaf_sound, hsame, ?_⟩
  have hmem : (runTournament t).root.name ∈ printPlayers (runTournament t).root := by
    rw [hT, printPlayers_tree]
    have hch := decided_champion f hdec
    simp only [Fields.tree, Player.name_node, Fields.names, List.mem_cons, List.mem_singleton]
    rcases hch with h | h | h | h | h | h | h | h <;> simp [h.1]
  obtain ⟨p, hp⟩ := findLeaf_complete _ _ hmem
  obtain ⟨a, b, c, rfl⟩ := findLeaf_tree_depth f _ p (by rw [← hT]; exact hp)
  have hs := findLeaf_sound _ _ _ hp
  refine ⟨a, b, c, hp, hs.1, ?_, hs.2, ?_, ?_⟩
  · rw [hT]
    cases a <;> cases b <;> cases c <;> rfl
  · cases a <;> cases b <;> cases c <;> decide
  · rw [hT, hB]
    rcases f with ⟨n0, n1, n2, n3, n4, n5, n6, n7, w1, w2, w3, w4, w5, w6, w7,
      s1, s2, s3, s4, s5, s6, s7⟩
    rcases f0 with ⟨m0, m1, m2, m3, m4, m5, m6, m7, v1, v2, v3, v4, v5, v6, v7,
      r1, r2, r3, r4, r5, r6, r7⟩
    simp only [Fields.names, List.cons.injEq, and_true] at hnames
    obtain ⟨rfl, rfl, rfl, rfl, rfl, rfl, rfl, rfl⟩ := hnames
    cases a <;> cases b <;> cases c <;> rfl

theorem findMatchByName_tree (f : Fields) (name : String) :
    findMatchByName f.tree name =
      if f.w7 = name then some []
      else if f.w5 = name then some [L]
      else if f.w1 = name then some [L, L]
      else if f.w2 = name then some [L, R]
      else if f.w6 = name then some [R]
      else if f.w3 = name then some [R, L]
      else if f.w4 = name then some [R, R]
      else none := by
  simp only [Fields.tree, findMatchByName]
  by_cases h7 : f.w7 = name
  · simp [h7]
  by_cases h5 : f.w5 = name
  · simp [h7, h5]
  by_cases h1 : f.w1 = name
  · simp [h7, h5, h1]
  by_cases h2 : f.w2 = name
  · simp [h7, h5, h1, h2]
  by_cases h6 : f.w6 = name
  · simp [h7, h5, h1, h2, h6]
  by_cases h3 : f.w3 = name
  · simp [h7, h5, h1, h2, h6, h3]
  by_cases h4 : f.w4 = name
  · simp [h7, h5, h1, h2, h6, h3, h4]
  simp [h7, h5, h1, h2, h6, h3, h4]

/-- Claim C14: after a full simulation `findMatchByName` returns not found exactly for the names
recorded on none of the seven match nodes; for a roster player whose leaf lies below the
quarterfinal at `[a, b]` and the semifinal at `[a]` it returns the root when the player is
recorded there, else the semifinal when recorded there, else the quarterfinal when recorded
there: the match closest to the root among those the player won. -/
theorem findMatchByName_highest_round (t : Tournament) (h : ShuffleOk t.rng) :
    (∀ name : String,
      findMatchByName (runTournament t).root name = none ↔
        ∀ k, k < 7 → ((runTournament t).root.nodeAt (matchOrder.getD k [])).name ≠ name) ∧
    (∀ p : String, p ∈ roster →
      ∃ a b c, findLeaf (runTournament t).root p = some [a, b, c] ∧
        findMatchByName (runTournament t).root p =
          if (runTournament t).root.name = p then some []
          else if ((runTournament t).root.nodeAt [a]).name = p then some [a]
          else if ((runTournament t).root.nodeAt [a, b]).name = p then some [a, b]
          else none) := by
  obtain ⟨f, hT, hperm, hdec⟩ := runTournament_tree t h
  rw [hT]
  constructor
  · intro name
    rw [findMatchByName_tree]
    constructor
    · intro hnone k hk
      split_ifs at hnone
      interval_cases k <;>
        simp only [matchOrder, List.getD_cons_zero, List.getD_cons_succ, Fields.tree, nodeAt,
          Player.name_node] <;> assumption
    · intro hall
      have k0 := hall 0 (by omega)
      have k1 := hall 1 (by omega)
      have k2 := hall 2 (by omega)
      have k3 := hall 3 (by omega)
      have k4 := hall 4 (by omega)
      have k5 := hall 5 (by omega)
      have k6 := hall 6 (by omega)
      simp only [matchOrder, List.getD_cons_zero, List.getD_cons_succ, Fields.tree, nodeAt,
        Player.name_node, ne_eq] at k0 k1 k2 k3 k4 k5 k6
      simp [k0, k1, k2, k3, k4, k5, k6]
  · intro p hp
    rw [findMatchByName_tree, findLeaf_tree]
    rcases f with ⟨n0, n1, n2, n3, n4, n5, n6, n7, w1, w2, w3, w4, w5, w6, w7,
      s1, s2, s3, s4, s5, s6, s7⟩
    simp only [Fields.names] at hperm
    have hne := names_ne hperm
    have hp2 : p ∈ [n0, n1, n2, n3, n4, n5, n6, n7] := hperm.symm.subset hp
    simp only [ne_eq] at hne
    obtain ⟨⟨a1, a2, a3, a4, a5, a6, a7⟩, ⟨b0, b2, b3, b4, b5, b6, b7⟩,
      ⟨c0, c1, c3, c4, c5, c6, c7⟩, ⟨d0, d1, d2, d4, d5, d6, d7⟩, ⟨e0, e1, e2, e3, e5, e6, e7⟩,
      ⟨f0, f1, f2, f3, f4, f6, f7⟩, ⟨g0, g1, g2, g3, g4, g5, g7⟩,
      ⟨i0, i1, i2, i3, i4, i5, i6⟩⟩ := hne
    simp only [List.mem_cons, List.mem_singleton, List.not_mem_nil, or_false] at hp2
    obtain ⟨h1, h2, h3, h4, h5, h6, -⟩ := hdec
    simp only at h1 h2 h3 h4 h5 h6
    rcases hp2 with rfl | rfl | rfl | rfl | rfl | rfl | rfl | rfl
    · have hq2 : ¬w2 = p := ne_of_or h2 (by assumption) (by assumption)
      have hq3 : ¬w3 = p := ne_of_or h3 (by assumption) (by assumption)
      have hq4 : ¬w4 = p := ne_of_or h4 (by assumption) (by assumption)
      have hs6 : ¬w6 = p := ne_of_or h6 hq3 hq4
      refine ⟨L, L, L, by simp [*], ?_⟩
      simp [Fields.tree, nodeAt, *]
    · have hq2 : ¬w2 = p := ne_of_or h2 (by assumption) (by assumption)
      have hq3 : ¬w3 = p := ne_of_or h3 (by assumption) (by assumption)
      have hq4 : ¬w4 = p := ne_of_or h4 (by assumption) (by assumption)
      have hs6 : ¬w6 = p := ne_of_or h6 hq3 hq4
      refine ⟨L, L, R, by simp [*], ?_⟩
      simp [Fields.tree, nodeAt, *]
    · have hq1 : ¬w1 = p := ne_of_or h1 (by assumption) (by assumption)
      have hq3 : ¬w3 = p := ne_of_or h3 (by assumption) (by assumption)
      have hq4 : ¬w4 = p := ne_of_or h4 (by assumption) (by assumption)
      have hs6 : ¬w6 = p := ne_of_or h6 hq3 hq4
      refine ⟨L, R, L, by simp [*], ?_⟩
      simp [Fields.tree, nodeAt, *]
    · have hq1 : ¬w1 = p := ne_of_or h1 (by assumption) (by assumption)
      have hq3 : ¬w3 = p := ne_of_or h3 (by assumption) (by assumption)
      have hq4 : ¬w4 = p := ne_of_or h4 (by assumption) (by assumption)
      have hs6 : ¬w6 = p := ne_of_or h6 hq3 hq4
      refine ⟨L, R, R, by simp [*], ?_⟩
      simp [Fields.tree, nodeAt, *]
    · have hq1 : ¬w1 = p := ne_of_or h1 (by assumption) (by assumption)
      have hq2 : ¬w2 = p := ne_of_or h2 (by assumption) (by assumption)
      have hq4 : ¬w4 = p := ne_of_or h4 (by assumption) (by assumption)
      have hs5 : ¬w5 = p := ne_of_or h5 hq1 hq2
      refine ⟨R, L, L, by simp [*], ?_⟩
      simp [Fields.tree, nodeAt, *]
    · have hq1 : ¬w1 = p := ne_of_or h1 (by assumption) (by assumption)
      have hq2 : ¬w2 = p := ne_of_or h2 (by assumption) (by assumption)
      have hq4 : ¬w4 = p := ne_of_or h4 (by assumption) (by assumption)
      have hs5 : ¬w5 = p := ne_of_or h5 hq1 hq2
      refine ⟨R, L, R, by simp [*], ?_⟩
      simp [Fields.tree, nodeAt, *]
    · have hq1 : ¬w1 = p := ne_of_or h1 (by assumption) (by assumption)
      have hq2 : ¬w2 = p := ne_of_or h2 (by assumption) (by assumption)
      have hq3 : ¬w3 = p := ne_of_or h3 (by assumption) (by assumption)
      have hs5 : ¬w5 = p := ne_of_or h5 hq1 hq2
      refine ⟨R, R, L, by simp [*], ?_⟩
      simp [Fields.tree, nodeAt, *]
    · have hq1 : ¬w1 = p := ne_of_or h1 (by assumption) (by assumption)
      have hq2 : ¬w2 = p := ne_of_or h2 (by assumption) (by assumption)
      have hq3 : ¬w3 = p := ne_of_or h3 (by assumption) (by assumption)
      have hs5 : ¬w5 = p := ne_of_or h5 hq1 hq2
      refine ⟨R, R, R, by simp [*], ?_⟩
      simp [Fields.tree, nodeAt, *]

theorem pathToFinal_tree (T : Tournament) (f : Fields) (hT : T.root = f.tree)
    (hperm : f.names.Perm roster) :
    pathToFinal T f.n0 =
      (if f.w1 ≠ f.n0 then [1] else if f.w5 ≠ f.n0 then [1, 5] else [1, 5, 7]) ∧
    pathToFinal T f.n1 =
      (if f.w1 ≠ f.n1 then [1] else if f.w5 ≠ f.n1 then [1, 5] else [1, 5, 7]) ∧
    pathToFinal T f.n2 =
      (if f.w2 ≠ f.n2 then [2] else if f.w5 ≠ f.n2 then [2, 5] else [2, 5, 7]) ∧
    pathToFinal T f.n3 =
      (if f.w2 ≠ f.n3 then [2] else if f.w5 ≠ f.n3 then [2, 5] else [2, 5, 7]) ∧
    pathToFinal T f.n4 =
      (if f.w3 ≠ f.n4 then [3] else if f.w6 ≠ f.n4 then [3, 6] else [3, 6, 7]) ∧
    pathToFinal T f.n5 =
      (if f.w3 ≠ f.n5 then [3] else if f.w6 ≠ f.n5 then [3, 6] else [3, 6, 7]) ∧
    pathToFinal T f.n6 =
      (if f.w4 ≠ f.n6 then [4] else if f.w6 ≠ f.n6 then [4, 6] else [4, 6, 7]) ∧
    pathToFinal T f.n7 =
      (if f.w4 ≠ f.n7 then [4] else if f.w6 ≠ f.n7 then [4, 6] else [4, 6, 7]) := by
  rcases f with ⟨n0, n1, n2, n3, n4, n5, n6, n7, w1, w2, w3, w4, w5, w6, w7,
    s1, s2, s3, s4, s5, s6, s7⟩
  simp only [Fields.names] at hperm
  have hne := names_ne hperm
  simp only [ne_eq] at hne
  obtain ⟨⟨a1, a2, a3, a4, a5, a6, a7⟩, ⟨b0, b2, b3, b4, b5, b6, b7⟩, ⟨c0, c1, c3, c4, c5, c6, c7⟩,
    ⟨d0, d1, d2, d4, d5, d6, d7⟩, ⟨e0, e1, e2, e3, e5, e6, e7⟩, ⟨f0, f1, f2, f3, f4, f6, f7⟩,
    ⟨g0, g1, g2, g3, g4, g5, g7⟩, ⟨i0, i1, i2, i3, i4, i5, i6⟩⟩ := hne
  simp only [pathToFinal, hT, Fields.tree]
  refine ⟨?_, ?_, ?_, ?_, ?_, ?_, ?_, ?_⟩ <;>
    simp [collectTheoreticalPath, pathLoop, findMatchById, nodeAt, *]

theorem placeholder_not_roster : ∀ x ∈ placeholders, ∀ p ∈ roster, ¬x = p := by
  decide

/-- Claim C15, the code at failing inputs.  On the built bracket of the sample run Alice sits
below QF2, which has no recorded result (score 0, placeholder winner), and yet `pathToFinal`
returns `[2]`.  After the quarterfinals of the same run Henry has won QF1, SF1 has no recorded
result, and `pathToFinal` returns `[1, 5]`: the id of an unplayed match is appended, not
skipped. -/
theorem pathToFinal_adds_unplayed_match :
    ShuffleOk sampleTournament.rng ∧ ScoresOk sampleTournament.rng ∧
    "Alice" ∈ roster ∧
    findLeaf (buildTournament sampleTournament).root "Alice" = some [L, R, L] ∧
    ((buildTournament sampleTournament).root.nodeAt [L, R]).matchId = 2 ∧
    ((buildTournament sampleTournament).root.nodeAt [L, R]).score = 0 ∧
    ((buildTournament sampleTournament).root.nodeAt [L, R]).name = "QF2 TBD" ∧
    pathToFinal (buildTournament sampleTournament) "Alice" = [2] ∧
    pathToFinal (buildTournament sampleTournament) "Alice" ≠ [] ∧
    "Henry" ∈ roster ∧
    playRound1 (buildTournament sampleTournament) =
      playedUpTo 4 (buildTournament sampleTournament) ∧
    findLeaf (playedUpTo 4 (buildTournament sampleTournament)).root "Henry" = some [L, L, L] ∧
    ((playedUpTo 4 (buildTournament sampleTournament)).root.nodeAt [L, L]).name = "Henry" ∧
    ((playedUpTo 4 (buildTournament sampleTournament)).root.nodeAt [L]).matchId = 5 ∧
    ((playedUpTo 4 (buildTournament sampleTournament)).root.nodeAt [L]).score = 0 ∧
    ((playedUpTo 4 (buildTournament sampleTournament)).root.nodeAt [L]).name = "SF1 TBD" ∧
    pathToFinal (playedUpTo 4 (buildTournament sampleTournament)) "Henry" = [1, 5] := by
  refine ⟨by decide, by decide, by decide, by decide, by decide, by decide, by decide, by decide,
    by decide, by decide, rfl, by decide, by decide, by decide, by decide, by decide, by decide⟩

/-- On every bracket that has been built but not yet simulated, `pathToFinal p` is `[q]` for
every roster player `p`, where `q` is the id of the quarterfinal above the leaf of `p`: the id is
appended although that match has score 0 and a placeholder winner, and the walk stops there
because the placeholder is not the name of the player. -/
theorem pathToFinal_built_bracket (t : Tournament) (h : ShuffleOk t.rng) (p : String)
    (hp : p ∈ roster) :
    ∃ a b c, findLeaf (buildTournament t).root p = some [a, b, c] ∧
      pathToFinal (buildTournament t) p = [((buildTournament t).root.nodeAt [a, b]).matchId] ∧
      ((buildTournament t).root.nodeAt [a, b]).score = 0 ∧
      ((buildTournament t).root.nodeAt [a, b]).name ≠ p ∧
      ((buildTournament t).root.nodeAt [a, b]).name ∈ placeholders := by
  obtain ⟨n0, n1, n2, n3, n4, n5, n6, n7, hperm, hb⟩ := buildTournament_tree t h
  have hroot : (buildTournament t).root = (Fields.init n0 n1 n2 n3 n4 n5 n6 n7).tree := by
    rw [hb]
  have hpt := pathToFinal_tree (buildTournament t) _ hroot hperm
  have hph := fun x hx => placeholder_not_roster x hx p hp
  simp only [placeholders, List.mem_cons, List.mem_singleton, List.not_mem_nil, or_false,
    forall_eq_or_imp, forall_eq] at hph
  have hne := names_ne hperm
  have hp2 : p ∈ [n0, n1, n2, n3, n4, n5, n6, n7] := hperm.symm.subset hp
  simp only [ne_eq] at hne
  obtain ⟨⟨a1, a2, a3, a4, a5, a6, a7⟩, ⟨b0, b2, b3, b4, b5, b6, b7⟩, ⟨c0, c1, c3, c4, c5, c6, c7⟩,
    ⟨d0, d1, d2, d4, d5, d6, d7⟩, ⟨e0, e1, e2, e3, e5, e6, e7⟩, ⟨f0, f1, f2, f3, f4, f6, f7⟩,
    ⟨g0, g1, g2, g3, g4, g5, g7⟩, ⟨i0, i1, i2, i3, i4, i5, i6⟩⟩ := hne
  simp only [List.mem_cons, List.mem_singleton, List.not_mem_nil, or_false] at hp2
  simp only [Fields.init] at hpt
  rw [hroot]
  rcases hp2 with rfl | rfl | rfl | rfl | rfl | rfl | rfl | rfl
  · exact ⟨L, L, L, by simp [findLeaf_tree, Fields.init, *], by
      rw [hpt.1]
      simp [Fields.init, Fields.tree, nodeAt, hph],
      by simp [Fields.init, Fields.tree, nodeAt], by simp [Fields.init, Fields.tree, nodeAt, hph],
      by simp [Fields.init, Fields.tree, nodeAt, placeholders]⟩
  · exact ⟨L, L, R, by simp [findLeaf_tree, Fields.init, *], by
      rw [hpt.2.1]
      simp [Fields.init, Fields.tree, nodeAt, hph],
      by simp [Fields.init, Fields.tree, nodeAt], by simp [Fields.init, Fields.tree, nodeAt, hph],
      by simp [Fields.init, Fields.tree, nodeAt, placeholders]⟩
  · exact ⟨L, R, L, by simp [findLeaf_tree, Fields.init, *], by
      rw [hpt.2.2.1]
      simp [Fields.init, Fields.tree, nodeAt, hph],
      by simp [Fields.init, Fields.tree, nodeAt], by simp [Fields.init, Fields.tree, nodeAt, hph],
      by simp [Fields.init, Fields.tree, nodeAt, placeholders]⟩
  · exact ⟨L, R, R, by simp [findLeaf_tree, Fields.init, *], by
      rw [hpt.2.2.2.1]
      simp [Fields.init, Fields.tree, nodeAt, hph],
      by simp [Fields.init, Fields.tree, nodeAt], by simp [Fields.init, Fields.tree, nodeAt, hph],
      by simp [Fields.init, Fields.tree, nodeAt, placeholders]⟩
  · exact ⟨R, L, L, by simp [findLeaf_tree, Fields.init, *], by
      rw [hpt.2.2.2.2.1]
      simp [Fields.init, Fields.tree, nodeAt, hph],
      by simp [Fields.init, Fields.tree, nodeAt], by simp [Fields.init, Fields.tree, nodeAt, hph],
      by simp [Fields.init, Fields.tree, nodeAt, placeholders]⟩
  · exact ⟨R, L, R, by simp [findLeaf_tree, Fields.init, *], by
      rw [hpt.2.2.2.2.2.1]
      simp [Fields.init, Fields.tree, nodeAt, hph],
      by simp [Fields.init, Fields.tree, nodeAt], by simp [Fields.init, Fields.tree, nodeAt, hph],
      by simp [Fields.init, Fields.tree, nodeAt, placeholders]⟩
  · exact ⟨R, R, L, by simp [findLeaf_tree, Fields.init, *], by
      rw [hpt.2.2.2.2.2.2.1]
      simp [Fields.init, Fields.tree, nodeAt, hph],
      by simp [Fields.init, Fields.tree, nodeAt], by simp [Fields.init, Fields.tree, nodeAt, hph],
      by simp [Fields.init, Fields.tree, nodeAt, placeholders]⟩
  · exact ⟨R, R, R, by simp [findLeaf_tree, Fields.init, *], by
      rw [hpt.2.2.2.2.2.2.2]
      simp [Fields.init, Fields.tree, nodeAt, hph],
      by simp [Fields.init, Fields.tree, nodeAt], by simp [Fields.init, Fields.tree, nodeAt, hph],
      by simp [Fields.init, Fields.tree, nodeAt, placeholders]⟩

theorem eraseResults_tree (f : Fields) :
    eraseResults f.tree = eraseResults (Fields.init f.n0 f.n1 f.n2 f.n3 f.n4 f.n5 f.n6 f.n7).tree := by
  simp [eraseResults, Fields.tree, Fields.init]

theorem stage_leaves (f : Fields) (g : Rng) (k : Nat) :
    (f.stage k g).n0 = f.n0 ∧ (f.stage k g).n1 = f.n1 ∧ (f.stage k g).n2 = f.n2 ∧
    (f.stage k g).n3 = f.n3 ∧ (f.stage k g).n4 = f.n4 ∧ (f.stage k g).n5 = f.n5 ∧
    (f.stage k g).n6 = f.n6 ∧ (f.stage k g).n7 = f.n7 := by
  have h := stage_names f g k
  simp only [Fields.names, List.cons.injEq, and_true] at h
  exact h

theorem eraseResults_stage (f : Fields) (g : Rng) (k : Nat) :
    eraseResults (f.stage k g).tree = eraseResults f.tree := by
  obtain ⟨h0, h1, h2, h3, h4, h5, h6, h7⟩ := stage_leaves f g k
  rw [eraseResults_tree, eraseResults_tree f, h0, h1, h2, h3, h4, h5, h6, h7]

theorem playedUpTo_shape_all (t : Tournament) :
    ∃ n0 n1 n2 n3 n4 n5 n6 n7 : String,
      buildTournament t =
        ⟨(Fields.init n0 n1 n2 n3 n4 n5 n6 n7).tree, ⟨t.rng.draws, t.rng.pos + 7⟩⟩ ∧
      ∀ k, k ≤ 7 → playedUpTo k (buildTournament t) =
        ⟨((Fields.init n0 n1 n2 n3 n4 n5 n6 n7).stage k ⟨t.rng.draws, t.rng.pos + 7⟩).tree,
          ⟨t.rng.draws, t.rng.pos + 7 + 2 * k⟩⟩ := by
  obtain ⟨n0, n1, n2, n3, n4, n5, n6, n7, hb⟩ := buildTournament_shape t
  refine ⟨n0, n1, n2, n3, n4, n5, n6, n7, hb, ?_⟩
  intro k hk
  rw [hb, playedUpTo_tree _ _ k hk]

set_option maxHeartbeats 2000000 in
/-- Claim C16: in every state `j` of the simulation the tree with the results wiped is the one of
the built bracket (same shape, same `matchId` everywhere, same name and score on every leaf).  The
match number `k` of the playing order starts with score 0 and a placeholder name; its name and
score are those of the built bracket up to state `k` and the final ones from state `k + 1` on; the
final name is the name that its left child (if the first draw is at least the second) or its right
child carried when the match was played, the final score is the greater of its two draws; with
draws in range the final score is at least 1 and the final name is a roster name, so both change
at that one step, from state `k` to state `k + 1`, and at no other.  When the match is played
its two children already carry their final name and score, and the playing order is the matches
1, 2, 3, 4 (`playRound1`), then 5, 6 (`playRound2`), then 7 (`playFinal`). -/
theorem simulation_changes_only_results (t : Tournament) (k : Nat) (hk : k < 7) (j : Nat)
    (hj : j ≤ 7) :
    eraseResults (playedUpTo j (buildTournament t)).root =
      eraseResults (buildTournament t).root ∧
    ((playedUpTo j (buildTournament t)).root.nodeAt (matchOrder.getD k [])).name =
      (if j ≤ k then ((buildTournament t).root.nodeAt (matchOrder.getD k [])).name
       else ((runTournament t).root.nodeAt (matchOrder.getD k [])).name) ∧
    ((playedUpTo j (buildTournament t)).root.nodeAt (matchOrder.getD k [])).score =
      (if j ≤ k then ((buildTournament t).root.nodeAt (matchOrder.getD k [])).score
       else ((runTournament t).root.nodeAt (matchOrder.getD k [])).score) ∧
    ((playedUpTo k (buildTournament t)).root.nodeAt (matchOrder.getD k [] ++ [L])).name =
      ((runTournament t).root.nodeAt (matchOrder.getD k [] ++ [L])).name ∧
    ((playedUpTo k (buildTournament t)).root.nodeAt (matchOrder.getD k [] ++ [L])).score =
      ((runTournament t).root.nodeAt (matchOrder.getD k [] ++ [L])).score ∧
    ((playedUpTo k (buildTournament t)).root.nodeAt (matchOrder.getD k [] ++ [R])).name =
      ((runTournament t).root.nodeAt (matchOrder.getD k [] ++ [R])).name ∧
    ((playedUpTo k (buildTournament t)).root.nodeAt (matchOrder.getD k [] ++ [R])).score =
      ((runTournament t).root.nodeAt (matchOrder.getD k [] ++ [R])).score ∧
    matchOrder.map (fun m => ((buildTournament t).root.nodeAt m).matchId) = [1, 2, 3, 4, 5, 6, 7] ∧
    (((buildTournament t).root.nodeAt (matchOrder.getD k [])).score = 0 ∧
      ((buildTournament t).root.nodeAt (matchOrder.getD k [])).name ∈ placeholders) ∧
    ((runTournament t).root.nodeAt (matchOrder.getD k [])).name =
      (if (t.rng.draws (t.rng.pos + 7 + 2 * k) : Int) ≥ t.rng.draws (t.rng.pos + 7 + 2 * k + 1)
       then ((playedUpTo k (buildTournament t)).root.nodeAt (matchOrder.getD k [])).left.name
       else ((playedUpTo k (buildTournament t)).root.nodeAt (matchOrder.getD k [])).right.name) ∧
    ((runTournament t).root.nodeAt (matchOrder.getD k [])).score =
      (if (t.rng.draws (t.rng.pos + 7 + 2 * k) : Int) ≥ t.rng.draws (t.rng.pos + 7 + 2 * k + 1)
       then (t.rng.draws (t.rng.pos + 7 + 2 * k) : Int)
       else (t.rng.draws (t.rng.pos + 7 + 2 * k + 1) : Int)) ∧
    (ScoresOk t.rng →
      1 ≤ ((runTournament t).root.nodeAt (matchOrder.getD k [])).score ∧
      ((playedUpTo (k + 1) (buildTournament t)).root.nodeAt (matchOrder.getD k [])).score ≠
        ((playedUpTo k (buildTournament t)).root.nodeAt (matchOrder.getD k [])).score) ∧
    (ShuffleOk t.rng →
      ((runTournament t).root.nodeAt (matchOrder.getD k [])).name ∈ roster ∧
      ((playedUpTo (k + 1) (buildTournament t)).root.nodeAt (matchOrder.getD k [])).name ≠
        ((playedUpTo k (buildTournament t)).root.nodeAt (matchOrder.getD k [])).name) ∧
    playRound1 (buildTournament t) = playedUpTo 4 (buildTournament t) ∧
    playRound2 (playedUpTo 4 (buildTournament t)) = playedUpTo 6 (buildTournament t) ∧
    playFinal (playedUpTo 6 (buildTournament t)) = playedUpTo 7 (buildTournament t) ∧
    runTournament t = playedUpTo 7 (buildTournament t) := by
  obtain ⟨n0, n1, n2, n3, n4, n5, n6, n7, hb, hall⟩ := playedUpTo_shape_all t
  have hrun : runTournament t = playedUpTo 7 (buildTournament t) := rfl
  have hlast : playRound1 (buildTournament t) = playedUpTo 4 (buildTournament t) ∧
      playRound2 (playedUpTo 4 (buildTournament t)) = playedUpTo 6 (buildTournament t) ∧
      playFinal (playedUpTo 6 (buildTournament t)) = playedUpTo 7 (buildTournament t) ∧
      runTournament t = playedUpTo 7 (buildTournament t) := ⟨rfl, rfl, rfl, rfl⟩
  have hname : ∀ i, i ≤ 7 →
      ((playedUpTo i (buildTournament t)).root.nodeAt (matchOrder.getD k [])).name =
        (if i ≤ k then ((buildTournament t).root.nodeAt (matchOrder.getD k [])).name
         else ((runTournament t).root.nodeAt (matchOrder.getD k [])).name) := by
    intro i hi
    simp only [hrun, hall i hi, hall 7 (by omega)]
    simp only [hb]
    interval_cases k <;> interval_cases i <;>
      simp [Fields.stage, Fields.play, Fields.tree, Fields.init, nodeAt, matchOrder]
  have hscore : ∀ i, i ≤ 7 →
      ((playedUpTo i (buildTournament t)).root.nodeAt (matchOrder.getD k [])).score =
        (if i ≤ k then ((buildTournament t).root.nodeAt (matchOrder.getD k [])).score
         else ((runTournament t).root.nodeAt (matchOrder.getD k [])).score) := by
    intro i hi
    simp only [hrun, hall i hi, hall 7 (by omega)]
    simp only [hb]
    interval_cases k <;> interval_cases i <;>
      simp [Fields.stage, Fields.play, Fields.tree, Fields.init, nodeAt, matchOrder]
  have hbuilt : ((buildTournament t).root.nodeAt (matchOrder.getD k [])).score = 0 ∧
      ((buildTournament t).root.nodeAt (matchOrder.getD k [])).name ∈ placeholders := by
    simp only [hb]
    interval_cases k <;>
      simp [Fields.tree, Fields.init, nodeAt, matchOrder, placeholders]
  have hfname : ((runTournament t).root.nodeAt (matchOrder.getD k [])).name =
      (if (t.rng.draws (t.rng.pos + 7 + 2 * k) : Int) ≥ t.rng.draws (t.rng.pos + 7 + 2 * k + 1)
       then ((playedUpTo k (buildTournament t)).root.nodeAt (matchOrder.getD k [])).left.name
       else ((playedUpTo k (buildTournament t)).root.nodeAt (matchOrder.getD k [])).right.name) := by
    simp only [hrun, hall k (by omega), hall 7 (by omega)]
    interval_cases k <;>
      simp [Fields.stage, Fields.play, Fields.tree, Fields.init, nodeAt, matchOrder]
  have hfscore : ((runTournament t).root.nodeAt (matchOrder.getD k [])).score =
      (if (t.rng.draws (t.rng.pos + 7 + 2 * k) : Int) ≥ t.rng.draws (t.rng.pos + 7 + 2 * k + 1)
       then (t.rng.draws (t.rng.pos + 7 + 2 * k) : Int)
       else (t.rng.draws (t.rng.pos + 7 + 2 * k + 1) : Int)) := by
    simp only [hrun, hall 7 (by omega)]
    interval_cases k <;>
      simp [Fields.stage, Fields.play, Fields.tree, Fields.init, nodeAt, matchOrder]
  have hnk := hname k (by omega)
  have hnk1 := hname (k + 1) (by omega)
  have hsk := hscore k (by omega)
  have hsk1 := hscore (k + 1) (by omega)
  rw [if_pos (Nat.le_refl k)] at hnk hsk
  rw [if_neg (by omega)] at hnk1 hsk1
  have hpos : ScoresOk t.rng →
      1 ≤ ((runTournament t).root.nodeAt (matchOrder.getD k [])).score ∧
      ((playedUpTo (k + 1) (buildTournament t)).root.nodeAt (matchOrder.getD k [])).score ≠
        ((playedUpTo k (buildTournament t)).root.nodeAt (matchOrder.getD k [])).score := by
    intro hs
    have hd := scoresOk_match hs k hk
    have h1 : 1 ≤ ((runTournament t).root.nodeAt (matchOrder.getD k [])).score := by
      rw [hfscore]
      split_ifs <;> omega
    refine ⟨h1, ?_⟩
    rw [hsk1, hsk, hbuilt.1]
    omega
  have hros : ShuffleOk t.rng →
      ((runTournament t).root.nodeAt (matchOrder.getD k [])).name ∈ roster ∧
      ((playedUpTo (k + 1) (buildTournament t)).root.nodeAt (matchOrder.getD k [])).name ≠
        ((playedUpTo k (buildTournament t)).root.nodeAt (matchOrder.getD k [])).name := by
    intro hsh
    obtain ⟨m0, m1, m2, m3, m4, m5, m6, m7, hperm, hb2⟩ := buildTournament_tree t hsh
    have h1 : ((runTournament t).root.nodeAt (matchOrder.getD k [])).name ∈ roster := by
      apply hperm.subset
      rw [hrun, hb2, playedUpTo_tree _ _ 7 (by omega)]
      interval_cases k <;>
        simp only [Fields.stage, Fields.play, Fields.tree, Fields.init, nodeAt, matchOrder,
          List.getD_cons_zero, List.getD_cons_succ, Player.name_node] <;>
        split_ifs <;> simp
    refine ⟨h1, ?_⟩
    rw [hnk1, hnk]
    intro e
    exact placeholder_not_roster _ hbuilt.2 _ h1 e.symm
  refine ⟨?_, hname j hj, hscore j hj, ?_, ?_, ?_, ?_, ?_, hbuilt, hfname, hfscore, hpos, hros,
    hlast⟩ <;>
    (try simp only [hrun, hall j hj, hall k (by omega), hall 7 (by omega)]) <;>
    (try simp only [hb])
  · simp only [eraseResults_stage]
  · interval_cases k <;>
      simp [Fields.stage, Fields.play, Fields.tree, Fields.init, nodeAt, matchOrder]
  · interval_cases k <;>
      simp [Fields.stage, Fields.play, Fields.tree, Fields.init, nodeAt, matchOrder]
  · interval_cases k <;>
      simp [Fields.stage, Fields.play, Fields.tree, Fields.init, nodeAt, matchOrder]
  · interval_cases k <;>
      simp [Fields.stage, Fields.play, Fields.tree, Fields.init, nodeAt, matchOrder]
  · simp [Fields.tree, Fields.init, nodeAt, matchOrder]

theorem list8_eq (l : List String) (h : l.length = 8) :
    [l[0]!, l[1]!, l[2]!, l[3]!, l[4]!, l[5]!, l[6]!, l[7]!] = l := by
  match l, h with
  | [a0, a1, a2, a3, a4, a5, a6, a7], _ => rfl

theorem shuffleLoop_length {α : Type} [Inhabited α] :
    ∀ (i : Nat) (vec : List α) (g : Rng), (shuffleLoop i vec g).1.length = vec.length
  | 0, _, _ => rfl
  | i + 1, vec, g => by
    simp only [shuffleLoop, Rng.next]
    rw [shuffleLoop_length i, swap_length]

theorem shuffleLoop_seven {α : Type} [Inhabited α] (vec : List α) (g : Rng) :
    (shuffleLoop 7 vec g).1 =
      swap (swap (swap (swap (swap (swap (swap vec
        7 (g.draws g.pos)) 6 (g.draws (g.pos + 1)))
        5 (g.draws (g.pos + 2))) 4 (g.draws (g.pos + 3)))
        3 (g.draws (g.pos + 4))) 2 (g.draws (g.pos + 5)))
        1 (g.draws (g.pos + 6)) := rfl

theorem buildTournament_explicit (t : Tournament) :
    buildTournament t =
      ⟨(Fields.init (shuffleLoop 7 roster t.rng).1[0]! (shuffleLoop 7 roster t.rng).1[1]!
          (shuffleLoop 7 roster t.rng).1[2]! (shuffleLoop 7 roster t.rng).1[3]!
          (shuffleLoop 7 roster t.rng).1[4]! (shuffleLoop 7 roster t.rng).1[5]!
          (shuffleLoop 7 roster t.rng).1[6]! (shuffleLoop 7 roster t.rng).1[7]!).tree,
        (shuffleLoop 7 roster t.rng).2⟩ := by
  simp only [buildTournament, shuffleVector, createNode, assign, Fields.tree, Fields.init,
    roster, List.length_cons, List.length_nil, Nat.reduceAdd, Nat.add_one_sub_one]

theorem printPlayers_init (a0 a1 a2 a3 a4 a5 a6 a7 : String) :
    printPlayers (Fields.init a0 a1 a2 a3 a4 a5 a6 a7).tree = [a0, a1, a2, a3, a4, a5, a6, a7] :=
  rfl

theorem printPlayers_build (t : Tournament) :
    printPlayers (buildTournament t).root = (shuffleLoop 7 roster t.rng).1 := by
  have hlen : (shuffleLoop 7 roster t.rng).1.length = 8 := by
    rw [shuffleLoop_length]
    rfl
  have hroot := congrArg Tournament.root (buildTournament_explicit t)
  simp only at hroot
  rw [hroot, printPlayers_init]
  exact list8_eq _ hlen

/-- Claim C17, counterexample: in the sample run the draws made after the shuffle number 14, not
23: the engine has handed out 7 values after `buildTournament` and 21 after the final. -/
theorem draws_outside_shuffle_counterexample :
    (buildTournament sampleTournament).rng.pos = 7 ∧
    (runTournament sampleTournament).rng.pos = 21 ∧
    (runTournament sampleTournament).rng.pos - (buildTournament sampleTournament).rng.pos = 14 ∧
    (runTournament sampleTournament).rng.pos - (buildTournament sampleTournament).rng.pos ≠ 23 := by
  decide

/-- Claim C17, amended: a full run consumes the random source in the fixed order shuffle (7 draws,
the draw number `k` being used at step `i = 7 - k`), then QF1, QF2, QF3, QF4, SF1, SF2, FINAL
(2 draws each, the first being the score of the left child), and the draws made outside the
shuffle number 14 per run, 21 in all. -/
theorem random_draw_order (t : Tournament) (k : Nat) (hk : k < 7) :
    (buildTournament t).rng = ⟨t.rng.draws, t.rng.pos + 7⟩ ∧
    printPlayers (buildTournament t).root =
      swap (swap (swap (swap (swap (swap (swap roster
        7 (t.rng.draws t.rng.pos)) 6 (t.rng.draws (t.rng.pos + 1)))
        5 (t.rng.draws (t.rng.pos + 2))) 4 (t.rng.draws (t.rng.pos + 3)))
        3 (t.rng.draws (t.rng.pos + 4))) 2 (t.rng.draws (t.rng.pos + 5)))
        1 (t.rng.draws (t.rng.pos + 6)) ∧
    (playedUpTo k (buildTournament t)).rng = ⟨t.rng.draws, t.rng.pos + 7 + 2 * k⟩ ∧
    (playedUpTo (k + 1) (buildTournament t)).rng = ⟨t.rng.draws, t.rng.pos + 7 + 2 * k + 2⟩ ∧
    ((playedUpTo (k + 1) (buildTournament t)).root.nodeAt (matchOrder.getD k [])).name =
      (if (t.rng.draws (t.rng.pos + 7 + 2 * k) : Int) ≥ t.rng.draws (t.rng.pos + 7 + 2 * k + 1)
       then ((playedUpTo k (buildTournament t)).root.nodeAt (matchOrder.getD k [])).left.name
       else ((playedUpTo k (buildTournament t)).root.nodeAt (matchOrder.getD k [])).right.name) ∧
    ((playedUpTo (k + 1) (buildTournament t)).root.nodeAt (matchOrder.getD k [])).score =
      (if (t.rng.draws (t.rng.pos + 7 + 2 * k) : Int) ≥ t.rng.draws (t.rng.pos + 7 + 2 * k + 1)
       then (t.rng.draws (t.rng.pos + 7 + 2 * k) : Int)
       else (t.rng.draws (t.rng.pos + 7 + 2 * k + 1) : Int)) ∧
    (runTournament t).rng.pos = t.rng.pos + 21 ∧
    (runTournament t).rng.pos - (buildTournament t).rng.pos = 14 := by
  obtain ⟨n0, n1, n2, n3, n4, n5, n6, n7, hb, hall⟩ := playedUpTo_shape_all t
  have hrun : runTournament t = playedUpTo 7 (buildTournament t) := rfl
  have hpp : printPlayers (buildTournament t).root =
      swap (swap (swap (swap (swap (swap (swap roster
        7 (t.rng.draws t.rng.pos)) 6 (t.rng.draws (t.rng.pos + 1)))
        5 (t.rng.draws (t.rng.pos + 2))) 4 (t.rng.draws (t.rng.pos + 3)))
        3 (t.rng.draws (t.rng.pos + 4))) 2 (t.rng.draws (t.rng.pos + 5)))
        1 (t.rng.draws (t.rng.pos + 6)) := by
    rw [printPlayers_build, shuffleLoop_seven]
  refine ⟨?_, hpp, ?_, ?_, ?_, ?_, ?_, ?_⟩
  · rw [hb]
  · rw [hall k (by omega)]
  · rw [hall (k + 1) (by omega)]
    simp only [Rng.mk.injEq, true_and]
    omega
  · rw [hall (k + 1) (by omega), hall k (by omega)]
    interval_cases k <;>
      simp [Fields.stage, Fields.play, Fields.tree, Fields.init, nodeAt, matchOrder]
  · rw [hall (k + 1) (by omega)]
    interval_cases k <;>
      simp [Fields.stage, Fields.play, Fields.tree, Fields.init, nodeAt, matchOrder]
  · rw [hrun, hall 7 (by omega)]
  · rw [hrun, hall 7 (by omega), hb]
    simp only
    omega

theorem lca_blank : ∀ (T : Player) (here a b : Path),
    lca (blank T) here a b = lca T here a b
  | null, _, _, _ => rfl
  | node i s n l r, here, a, b => by
    simp only [blank, lca, lca_blank l, lca_blank r]

theorem blank_tree (f : Fields) : blank f.tree = bracketShape := rfl

set_option maxRecDepth 100000 in
theorem lca_bracketShape :
    ∀ a ∈ allPaths, ∀ b ∈ allPaths, lca bracketShape [] a b = some (commonPrefix a b) := by
  decide

theorem mem_allPaths_of_node (f : Fields) (a : Path)
    (h : (f.tree.nodeAt a).isNull = false) : a ∈ allPaths := by
  rcases a with _ | ⟨x, _ | ⟨y, _ | ⟨z, _ | ⟨w, r⟩⟩⟩⟩
  · decide
  · cases x <;> decide
  · cases x <;> cases y <;> decide
  · cases x <;> cases y <;> cases z <;> decide
  · exfalso
    cases x <;> cases y <;> cases z <;> cases w <;> cases r <;>
      simp [Fields.tree, nodeAt] at h

theorem lca_tree (f : Fields) (a b : Path) (ha : a ∈ allPaths) (hb : b ∈ allPaths) :
    lca f.tree [] a b = some (commonPrefix a b) := by
  rw [← lca_blank, blank_tree]
  exact lca_bracketShape a ha b hb

theorem commonPrefix_prefix_left : ∀ a b : Path, commonPrefix a b <+: a
  | [], _ => by simp [commonPrefix]
  | _ :: _, [] => by simp [commonPrefix]
  | x :: a, y :: b => by
    unfold commonPrefix
    split
    · exact (List.prefix_cons_inj x).2 (commonPrefix_prefix_left a b)
    · exact List.nil_prefix

theorem commonPrefix_prefix_right : ∀ a b : Path, commonPrefix a b <+: b
  | [], _ => by simp [commonPrefix]
  | _ :: _, [] => by simp [commonPrefix]
  | x :: a, y :: b => by
    unfold commonPrefix
    split
    · rename_i hxy
      subst hxy
      exact (List.prefix_cons_inj x).2 (commonPrefix_prefix_right a b)
    · exact List.nil_prefix

theorem prefix_commonPrefix : ∀ c a b : Path, c <+: a → c <+: b → c <+: commonPrefix a b
  | [], _, _, _, _ => List.nil_prefix
  | z :: c, [], _, h, _ => by simp at h
  | z :: c, _ :: _, [], _, h => by simp at h
  | z :: c, x :: a, y :: b, h1, h2 => by
    rw [List.cons_prefix_cons] at h1 h2
    obtain ⟨rfl, h1⟩ := h1
    obtain ⟨rfl, h2⟩ := h2
    simp only [commonPrefix, if_true]
    exact (List.prefix_cons_inj z).2 (prefix_commonPrefix c a b h1 h2)

theorem commonPrefix_of_prefix (a b : Path) (h : a <+: b) : commonPrefix a b = a :=
  (commonPrefix_prefix_left a b).eq_of_length_le
    (prefix_commonPrefix a a b (List.prefix_refl a) h).length_le

theorem commonPrefix_of_prefix_right (a b : Path) (h : b <+: a) : commonPrefix a b = b :=
  (commonPrefix_prefix_right a b).eq_of_length_le
    (prefix_commonPrefix b a b h (List.prefix_refl b)).length_le

/-- Claim C18: in the built bracket and in every later state of the simulation, for two nodes at
positions `a` and `b`, `lca` returns the node at the longest common prefix of `a` and `b`, which
is the deepest node whose subtree contains both; it is `a` when `a` is an ancestor of `b` or equal
to it (and `b` in the symmetric case); and the result is the same on the built bracket and after
the full simulation. -/
theorem lca_deepest_common_node (t : Tournament) (k : Nat) (hk : k ≤ 7) (a b : Path)
    (ha : ((playedUpTo k (buildTournament t)).root.nodeAt a).isNull = false)
    (hb : ((playedUpTo k (buildTournament t)).root.nodeAt b).isNull = false) :
    lca (playedUpTo k (buildTournament t)).root [] a b = some (commonPrefix a b) ∧
    (commonPrefix a b <+: a ∧ commonPrefix a b <+: b ∧
      ∀ c : Path, c <+: a → c <+: b → c <+: commonPrefix a b) ∧
    (a <+: b → lca (playedUpTo k (buildTournament t)).root [] a b = some a) ∧
    (b <+: a → lca (playedUpTo k (buildTournament t)).root [] a b = some b) ∧
    lca (playedUpTo k (buildTournament t)).root [] a b =
      lca (buildTournament t).root [] a b ∧
    lca (playedUpTo k (buildTournament t)).root [] a b =
      lca (runTournament t).root [] a b := by
  obtain ⟨n0, n1, n2, n3, n4, n5, n6, n7, hbuild, hall⟩ := playedUpTo_shape_all t
  have hrun : runTournament t = playedUpTo 7 (buildTournament t) := rfl
  have hroot := congrArg Tournament.root (hall k hk)
  have hroot7 := congrArg Tournament.root (hall 7 (by omega))
  have hroot0 := congrArg Tournament.root hbuild
  simp only at hroot hroot7 hroot0
  rw [hroot] at ha hb
  have ma := mem_allPaths_of_node _ a ha
  have mb := mem_allPaths_of_node _ b hb
  have hl : lca (playedUpTo k (buildTournament t)).root [] a b = some (commonPrefix a b) := by
    rw [hroot]; exact lca_tree _ a b ma mb
  refine ⟨hl, ⟨commonPrefix_prefix_left a b, commonPrefix_prefix_right a b,
    fun c => prefix_commonPrefix c a b⟩, ?_, ?_, ?_, ?_⟩
  · intro h; rw [hl, commonPrefix_of_prefix a b h]
  · intro h; rw [hl, commonPrefix_of_prefix_right a b h]
  · rw [hl, hroot0]; exact (lca_tree _ a b ma mb).symm
  · rw [hl, hrun, hroot7]; exact (lca_tree _ a b ma mb).symm

theorem runTournament_scores (t : Tournament) (h : ShuffleOk t.rng) (hs : ScoresOk t.rng) :
    ∃ f : Fields, (runTournament t).root = f.tree ∧ f.names.Perm roster ∧ f.Decided ∧
      (1 ≤ f.s1 ∧ f.s1 ≤ 10) ∧ (1 ≤ f.s2 ∧ f.s2 ≤ 10) ∧ (1 ≤ f.s3 ∧ f.s3 ≤ 10) ∧
      (1 ≤ f.s4 ∧ f.s4 ≤ 10) ∧ (1 ≤ f.s5 ∧ f.s5 ≤ 10) ∧ (1 ≤ f.s6 ∧ f.s6 ≤ 10) ∧
      (1 ≤ f.s7 ∧ f.s7 ≤ 10) := by
  obtain ⟨n0, n1, n2, n3, n4, n5, n6, n7, hperm, hb⟩ := buildTournament_tree t h
  have hrun : runTournament t = playedUpTo 7 (buildTournament t) := rfl
  have k0 := scoresOk_match hs 0 (by omega)
  have k1 := scoresOk_match hs 1 (by omega)
  have k2 := scoresOk_match hs 2 (by omega)
  have k3 := scoresOk_match hs 3 (by omega)
  have k4 := scoresOk_match hs 4 (by omega)
  have k5 := scoresOk_match hs 5 (by omega)
  have k6 := scoresOk_match hs 6 (by omega)
  refine ⟨(Fields.init n0 n1 n2 n3 n4 n5 n6 n7).stage 7 ⟨t.rng.draws, t.rng.pos + 7⟩, ?_, ?_,
    stage_decided _ _, ?_⟩
  · rw [hrun, hb, playedUpTo_tree _ _ 7 (by omega)]
  · rw [stage_names]; exact hperm
  · simp only [Fields.stage, Fields.play, Fields.init]
    refine ⟨⟨?_, ?_⟩, ⟨?_, ?_⟩, ⟨?_, ?_⟩, ⟨?_, ?_⟩, ⟨?_, ?_⟩, ⟨?_, ?_⟩, ⟨?_, ?_⟩⟩ <;>
      split_ifs <;> omega

theorem credit_one {n0 n1 n2 n3 n4 n5 n6 n7 : String}
    (hperm : [n0, n1, n2, n3, n4, n5, n6, n7].Perm roster) (w : String) (s : Int)
    (hw : w ∈ [n0, n1, n2, n3, n4, n5, n6, n7]) :
    (if w = n0 then s else 0) + (if w = n1 then s else 0) + (if w = n2 then s else 0) +
      (if w = n3 then s else 0) + (if w = n4 then s else 0) + (if w = n5 then s else 0) +
      (if w = n6 then s else 0) + (if w = n7 then s else 0) = s := by
  have hne := names_ne hperm
  simp only [ne_eq] at hne
  obtain ⟨⟨a1, a2, a3, a4, a5, a6, a7⟩, ⟨b0, b2, b3, b4, b5, b6, b7⟩, ⟨c0, c1, c3, c4, c5, c6, c7⟩,
    ⟨d0, d1, d2, d4, d5, d6, d7⟩, ⟨e0, e1, e2, e3, e5, e6, e7⟩, ⟨f0, f1, f2, f3, f4, f6, f7⟩,
    ⟨g0, g1, g2, g3, g4, g5, g7⟩, ⟨i0, i1, i2, i3, i4, i5, i6⟩⟩ := hne
  simp only [List.mem_cons, List.mem_singleton, List.not_mem_nil, or_false] at hw
  rcases hw with rfl | rfl | rfl | rfl | rfl | rfl | rfl | rfl <;> simp [*]

theorem decided_winners_mem (f : Fields) (h : f.Decided) :
    f.w1 ∈ f.names ∧ f.w2 ∈ f.names ∧ f.w3 ∈ f.names ∧ f.w4 ∈ f.names ∧
    f.w5 ∈ f.names ∧ f.w6 ∈ f.names ∧ f.w7 ∈ f.names := by
  obtain ⟨h1, h2, h3, h4, h5, h6, h7⟩ := h
  have m1 : f.w1 ∈ f.names := by rcases h1 with e | e <;> simp [Fields.names, e]
  have m2 : f.w2 ∈ f.names := by rcases h2 with e | e <;> simp [Fields.names, e]
  have m3 : f.w3 ∈ f.names := by rcases h3 with e | e <;> simp [Fields.names, e]
  have m4 : f.w4 ∈ f.names := by rcases h4 with e | e <;> simp [Fields.names, e]
  have m5 : f.w5 ∈ f.names := by rcases h5 with e | e <;> rw [e] <;> assumption
  have m6 : f.w6 ∈ f.names := by rcases h6 with e | e <;> rw [e] <;> assumption
  have m7 : f.w7 ∈ f.names := by rcases h7 with e | e <;> rw [e] <;> assumption
  exact ⟨m1, m2, m3, m4, m5, m6, m7⟩

theorem wrapInt32_zero : wrapInt32 0 = 0 := by decide

theorem wrapInt32_of_range (x : Int) (h1 : -2147483648 ≤ x) (h2 : x ≤ 2147483647) :
    wrapInt32 x = x := by
  unfold wrapInt32
  omega

theorem wonScores_node (i s : Int) (n : String) (l r : Player) (name : String) :
    (wonScores (node i s n l r) name).sum =
      (if i ≠ 0 ∧ n = name then s else 0) + (wonScores l name).sum + (wonScores r name).sum := by
  unfold wonScores
  by_cases hc : i ≠ 0 ∧ n = name
  · simp [nodes, List.filter_cons, hc, add_assoc]
  · have hc2 : ¬(¬i = 0 ∧ n = name) := hc
    simp [nodes, List.filter_cons, hc, hc2]

theorem getTotalScoreByName_eq_wrap : ∀ (T : Player) (name : String),
    getTotalScoreByName T name = wrapInt32 (wonScores T name).sum
  | null, _ => by
    simp only [getTotalScoreByName, wonScores, nodes, List.filter_nil, List.map_nil, List.sum_nil,
      wrapInt32_zero]
  | node i s n l r, name => by
    have hl := getTotalScoreByName_eq_wrap l name
    have hr := getTotalScoreByName_eq_wrap r name
    rw [wonScores_node]
    simp only [getTotalScoreByName, hl, hr]
    generalize (wonScores l name).sum = sl
    generalize (wonScores r name).sum = sr
    split_ifs <;> (unfold wrapInt32; omega)

theorem total_tree_wrap (f : Fields) (name : String) :
    getTotalScoreByName f.tree name =
      wrapInt32 ((if f.w1 = name then f.s1 else 0) + (if f.w2 = name then f.s2 else 0) +
        (if f.w3 = name then f.s3 else 0) + (if f.w4 = name then f.s4 else 0) +
        (if f.w5 = name then f.s5 else 0) + (if f.w6 = name then f.s6 else 0) +
        (if f.w7 = name then f.s7 else 0)) := by
  have e : ∀ (c : Prop) [Decidable c] (s : Int),
      (if c then wrapInt32 (0 + s) else 0) = wrapInt32 (if c then s else 0) := by
    intro c _ s
    split <;> simp [wrapInt32_zero]
  simp only [getTotalScoreByName, Fields.tree, ne_eq, not_true_eq_false, false_and, if_false,
    OfNat.ofNat_ne_zero, one_ne_zero, not_false_eq_true, true_and, e, add_zero, wrapInt32_zero]
  generalize (if f.w1 = name then f.s1 else 0) = x1
  generalize (if f.w2 = name then f.s2 else 0) = x2
  generalize (if f.w3 = name then f.s3 else 0) = x3
  generalize (if f.w4 = name then f.s4 else 0) = x4
  generalize (if f.w5 = name then f.s5 else 0) = x5
  generalize (if f.w6 = name then f.s6 else 0) = x6
  generalize (if f.w7 = name then f.s7 else 0) = x7
  unfold wrapInt32
  omega

theorem total_tree (f : Fields) (name : String)
    (hb : (0 ≤ f.s1 ∧ f.s1 ≤ 10) ∧ (0 ≤ f.s2 ∧ f.s2 ≤ 10) ∧ (0 ≤ f.s3 ∧ f.s3 ≤ 10) ∧
      (0 ≤ f.s4 ∧ f.s4 ≤ 10) ∧ (0 ≤ f.s5 ∧ f.s5 ≤ 10) ∧ (0 ≤ f.s6 ∧ f.s6 ≤ 10) ∧
      (0 ≤ f.s7 ∧ f.s7 ≤ 10)) :
    getTotalScoreByName f.tree name =
      (if f.w1 = name then f.s1 else 0) + (if f.w2 = name then f.s2 else 0) +
      (if f.w3 = name then f.s3 else 0) + (if f.w4 = name then f.s4 else 0) +
      (if f.w5 = name then f.s5 else 0) + (if f.w6 = name then f.s6 else 0) +
      (if f.w7 = name then f.s7 else 0) := by
  obtain ⟨b1, b2, b3, b4, b5, b6, b7⟩ := hb
  rw [total_tree_wrap]
  apply wrapInt32_of_range <;> split_ifs <;> omega

theorem total_of_no_win (f : Fields) (name : String)
    (h : (f.w1 ≠ name ∧ f.w2 ≠ name ∧ f.w3 ≠ name ∧ f.w4 ≠ name) ∧
      f.w5 ≠ name ∧ f.w6 ≠ name ∧ f.w7 ≠ name) :
    getTotalScoreByName f.tree name = 0 := by
  obtain ⟨⟨h1, h2, h3, h4⟩, h5, h6, h7⟩ := h
  rw [total_tree_wrap]
  simp [h1, h2, h3, h4, h5, h6, h7, wrapInt32_zero]

theorem wonScores_tree (f : Fields) (name : String) :
    (wonScores f.tree name).sum =
      (if f.w1 = name then f.s1 else 0) + (if f.w2 = name then f.s2 else 0) +
      (if f.w3 = name then f.s3 else 0) + (if f.w4 = name then f.s4 else 0) +
      (if f.w5 = name then f.s5 else 0) + (if f.w6 = name then f.s6 else 0) +
      (if f.w7 = name then f.s7 else 0) := by
  have hnull : (wonScores null name).sum = 0 := rfl
  simp only [Fields.tree, wonScores_node, hnull, ne_eq, not_true_eq_false, false_and, if_false,
    OfNat.ofNat_ne_zero, one_ne_zero, not_false_eq_true, true_and]
  ring

/-- Claim C10: `getTotalScoreByName` is the sum, taken in 32-bit `int`, of the scores of the nodes
with `matchId != 0` whose recorded winner is the name; it is that sum itself whenever the sum is
an `int` value, and so it is on the bracket after a full simulation with draws in range.  A leaf
made by `createNode(0, 0, n)` contributes 0 whatever its name.  After a full simulation the total
is 0 for a name recorded on no match, for a name outside the roster and for a player who is not
the winner recorded on the quarterfinal above the own leaf, and for the champion it is the sum of
the three scores recorded on the quarterfinal and the semifinal above the leaf of the champion
and on the final. -/
theorem getTotalScoreByName_sums_wins (t : Tournament) (h : ShuffleOk t.rng)
    (hs : ScoresOk t.rng) :
    (∀ (T : Player) (name : String),
      getTotalScoreByName T name = wrapInt32 (wonScores T name).sum) ∧
    (∀ (T : Player) (name : String), -2147483648 ≤ (wonScores T name).sum →
      (wonScores T name).sum ≤ 2147483647 →
      getTotalScoreByName T name = (wonScores T name).sum) ∧
    (∀ name : String,
      getTotalScoreByName (runTournament t).root name =
        (wonScores (runTournament t).root name).sum) ∧
    (∀ n name : String, getTotalScoreByName (createNode 0 0 n) name = 0) ∧
    (∀ name : String,
      (∀ k, k < 7 → ((runTournament t).root.nodeAt (matchOrder.getD k [])).name ≠ name) →
      getTotalScoreByName (runTournament t).root name = 0) ∧
    (∀ name : String, name ∉ roster → getTotalScoreByName (runTournament t).root name = 0) ∧
    (∀ p : String, p ∈ roster →
      ∃ a b c, findLeaf (runTournament t).root p = some [a, b, c] ∧
        (((runTournament t).root.nodeAt [a, b]).name ≠ p →
          getTotalScoreByName (runTournament t).root p = 0)) ∧
    (∃ a b c, findLeaf (runTournament t).root (runTournament t).root.name = some [a, b, c] ∧
      getTotalScoreByName (runTournament t).root (runTournament t).root.name =
        ((runTournament t).root.nodeAt [a, b]).score + ((runTournament t).root.nodeAt [a]).score
          + (runTournament t).root.score) := by
  obtain ⟨f, hT, hperm, hdec, b1, b2, b3, b4, b5, b6, b7⟩ := runTournament_scores t h hs
  have hbnd : (0 ≤ f.s1 ∧ f.s1 ≤ 10) ∧ (0 ≤ f.s2 ∧ f.s2 ≤ 10) ∧ (0 ≤ f.s3 ∧ f.s3 ≤ 10) ∧
      (0 ≤ f.s4 ∧ f.s4 ≤ 10) ∧ (0 ≤ f.s5 ∧ f.s5 ≤ 10) ∧ (0 ≤ f.s6 ∧ f.s6 ≤ 10) ∧
      (0 ≤ f.s7 ∧ f.s7 ≤ 10) :=
    ⟨⟨by omega, b1.2⟩, ⟨by omega, b2.2⟩, ⟨by omega, b3.2⟩, ⟨by omega, b4.2⟩, ⟨by omega, b5.2⟩,
      ⟨by omega, b6.2⟩, ⟨by omega, b7.2⟩⟩
  refine ⟨getTotalScoreByName_eq_wrap,
    fun T name h1 h2 => by rw [getTotalScoreByName_eq_wrap, wrapInt32_of_range _ h1 h2],
    fun name => by rw [hT, total_tree f name hbnd, wonScores_tree],
    fun n name => by simp [createNode, getTotalScoreByName, wrapInt32_zero],
    ?_, ?_, ?_, ?_⟩
  · intro name hk
    rw [hT] at hk ⊢
    apply total_of_no_win
    have k0 := hk 0 (by omega)
    have k1 := hk 1 (by omega)
    have k2 := hk 2 (by omega)
    have k3 := hk 3 (by omega)
    have k4 := hk 4 (by omega)
    have k5 := hk 5 (by omega)
    have k6 := hk 6 (by omega)
    simp only [matchOrder, List.getD_cons_zero, List.getD_cons_succ, Fields.tree, nodeAt,
      Player.name_node] at k0 k1 k2 k3 k4 k5 k6
    exact ⟨⟨k0, k1, k2, k3⟩, k4, k5, k6⟩
  · intro name hn
    rw [hT]
    apply total_of_no_win
    have hmem : ∀ x ∈ f.names, ¬x = name := by
      intro x hx e
      exact hn (e ▸ hperm.subset hx)
    simp only [Fields.names, List.mem_cons, List.mem_singleton, List.not_mem_nil, or_false,
      forall_eq_or_imp, forall_eq] at hmem
    obtain ⟨m0, m1, m2, m3, m4, m5, m6, m7⟩ := hmem
    exact decided_no_win f hdec name (ne_of_or hdec.1 m0 m1) (ne_of_or hdec.2.1 m2 m3)
      (ne_of_or hdec.2.2.1 m4 m5) (ne_of_or hdec.2.2.2.1 m6 m7)
  · intro p hp
    rw [hT]
    have hd := hdec
    rcases f with ⟨n0, n1, n2, n3, n4, n5, n6, n7, w1, w2, w3, w4, w5, w6, w7,
      s1, s2, s3, s4, s5, s6, s7⟩
    simp only [Fields.names] at hperm
    have hne := names_ne hperm
    have hp2 : p ∈ [n0, n1, n2, n3, n4, n5, n6, n7] := hperm.symm.subset hp
    simp only [ne_eq] at hne
    obtain ⟨⟨a1, a2, a3, a4, a5, a6, a7⟩, ⟨b0, b2, b3, b4, b5, b6, b7⟩,
      ⟨c0, c1, c3, c4, c5, c6, c7⟩, ⟨d0, d1, d2, d4, d5, d6, d7⟩, ⟨e0, e1, e2, e3, e5, e6, e7⟩,
      ⟨f0, f1, f2, f3, f4, f6, f7⟩, ⟨g0, g1, g2, g3, g4, g5, g7⟩,
      ⟨i0, i1, i2, i3, i4, i5, i6⟩⟩ := hne
    simp only [List.mem_cons, List.mem_singleton, List.not_mem_nil, or_false] at hp2
    obtain ⟨h1, h2, h3, h4, -, -, -⟩ := hd
    simp only at h1 h2 h3 h4
    rcases hp2 with rfl | rfl | rfl | rfl | rfl | rfl | rfl | rfl
    · refine ⟨L, L, L, by simp [findLeaf, Fields.tree, *], ?_⟩
      intro hlost
      simp only [Fields.tree, nodeAt, Player.name_node] at hlost
      apply total_of_no_win
      refine decided_no_win _ hdec _ ?_ ?_ ?_ ?_ <;>
        first | exact hlost | exact ne_of_or (by assumption) (by assumption) (by assumption)
    · refine ⟨L, L, R, by simp [findLeaf, Fields.tree, *], ?_⟩
      intro hlost
      simp only [Fields.tree, nodeAt, Player.name_node] at hlost
      apply total_of_no_win
      refine decided_no_win _ hdec _ ?_ ?_ ?_ ?_ <;>
        first | exact hlost | exact ne_of_or (by assumption) (by assumption) (by assumption)
    · refine ⟨L, R, L, by simp [findLeaf, Fields.tree, *], ?_⟩
      intro hlost
      simp only [Fields.tree, nodeAt, Player.name_node] at hlost
      apply total_of_no_win
      refine decided_no_win _ hdec _ ?_ ?_ ?_ ?_ <;>
        first | exact hlost | exact ne_of_or (by assumption) (by assumption) (by assumption)
    · refine ⟨L, R, R, by simp [findLeaf, Fields.tree, *], ?_⟩
      intro hlost
      simp only [Fields.tree, nodeAt, Player.name_node] at hlost
      apply total_of_no_win
      refine decided_no_win _ hdec _ ?_ ?_ ?_ ?_ <;>
        first | exact hlost | exact ne_of_or (by assumption) (by assumption) (by assumption)
    · refine ⟨R, L, L, by simp [findLeaf, Fields.tree, *], ?_⟩
      intro hlost
      simp only [Fields.tree, nodeAt, Player.name_node] at hlost
      apply total_of_no_win
      refine decided_no_win _ hdec _ ?_ ?_ ?_ ?_ <;>
        first | exact hlost | exact ne_of_or (by assumption) (by assumption) (by assumption)
    · refine ⟨R, L, R, by simp [findLeaf, Fields.tree, *], ?_⟩
      intro hlost
      simp only [Fields.tree, nodeAt, Player.name_node] at hlost
      apply total_of_no_win
      refine decided_no_win _ hdec _ ?_ ?_ ?_ ?_ <;>
        first | exact hlost | exact ne_of_or (by assumption) (by assumption) (by assumption)
    · refine ⟨R, R, L, by simp [findLeaf, Fields.tree, *], ?_⟩
      intro hlost
      simp only [Fields.tree, nodeAt, Player.name_node] at hlost
      apply total_of_no_win
      refine decided_no_win _ hdec _ ?_ ?_ ?_ ?_ <;>
        first | exact hlost | exact ne_of_or (by assumption) (by assumption) (by assumption)
    · refine ⟨R, R, R, by simp [findLeaf, Fields.tree, *], ?_⟩
      intro hlost
      simp only [Fields.tree, nodeAt, Player.name_node] at hlost
      apply total_of_no_win
      refine decided_no_win _ hdec _ ?_ ?_ ?_ ?_ <;>
        first | exact hlost | exact ne_of_or (by assumption) (by assumption) (by assumption)
  · rw [hT]
    have hch := decided_champion f hdec
    have htot := total_tree f f.w7 hbnd
    rcases f with ⟨n0, n1, n2, n3, n4, n5, n6, n7, w1, w2, w3, w4, w5, w6, w7,
      s1, s2, s3, s4, s5, s6, s7⟩
    simp only [Fields.names] at hperm
    have hne := names_ne hperm
    simp only [ne_eq] at hne
    obtain ⟨⟨a1, a2, a3, a4, a5, a6, a7⟩, ⟨b0, b2, b3, b4, b5, b6, b7⟩,
      ⟨c0, c1, c3, c4, c5, c6, c7⟩, ⟨d0, d1, d2, d4, d5, d6, d7⟩, ⟨e0, e1, e2, e3, e5, e6, e7⟩,
      ⟨f0, f1, f2, f3, f4, f6, f7⟩, ⟨g0, g1, g2, g3, g4, g5, g7⟩,
      ⟨i0, i1, i2, i3, i4, i5, i6⟩⟩ := hne
    obtain ⟨h1, h2, h3, h4, h5, h6, -⟩ := hdec
    simp only at h1 h2 h3 h4 h5 h6 hch
    simp only [Fields.tree] at htot
    simp only [Fields.tree, Player.name_node, Player.score_node]
    rcases hch with ⟨x, y, z⟩ | ⟨x, y, z⟩ | ⟨x, y, z⟩ | ⟨x, y, z⟩ | ⟨x, y, z⟩ | ⟨x, y, z⟩ |
      ⟨x, y, z⟩ | ⟨x, y, z⟩
    · have hq2 : ¬w2 = n0 := ne_of_or h2 (by assumption) (by assumption)
      have hq3 : ¬w3 = n0 := ne_of_or h3 (by assumption) (by assumption)
      have hq4 : ¬w4 = n0 := ne_of_or h4 (by assumption) (by assumption)
      have hs6 : ¬w6 = n0 := ne_of_or h6 hq3 hq4
      refine ⟨L, L, L, ?_, ?_⟩
      · simp [findLeaf, x, *]
      · rw [htot]
        simp [nodeAt, x, y, z, *]
    · have hq2 : ¬w2 = n1 := ne_of_or h2 (by assumption) (by assumption)
      have hq3 : ¬w3 = n1 := ne_of_or h3 (by assumption) (by assumption)
      have hq4 : ¬w4 = n1 := ne_of_or h4 (by assumption) (by assumption)
      have hs6 : ¬w6 = n1 := ne_of_or h6 hq3 hq4
      refine ⟨L, L, R, ?_, ?_⟩
      · simp [findLeaf, x, *]
      · rw [htot]
        simp [nodeAt, x, y, z, *]
    · have hq1 : ¬w1 = n2 := ne_of_or h1 (by assumption) (by assumption)
      have hq3 : ¬w3 = n2 := ne_of_or h3 (by assumption) (by assumption)
      have hq4 : ¬w4 = n2 := ne_of_or h4 (by assumption) (by assumption)
      have hs6 : ¬w6 = n2 := ne_of_or h6 hq3 hq4
      refine ⟨L, R, L, ?_, ?_⟩
      · simp [findLeaf, x, *]
      · rw [htot]
        simp [nodeAt, x, y, z, *]
    · have hq1 : ¬w1 = n3 := ne_of_or h1 (by assumption) (by assumption)
      have hq3 : ¬w3 = n3 := ne_of_or h3 (by assumption) (by assumption)
      have hq4 : ¬w4 = n3 := ne_of_or h4 (by assumption) (by assumption)
      have hs6 : ¬w6 = n3 := ne_of_or h6 hq3 hq4
      refine ⟨L, R, R, ?_, ?_⟩
      · simp [findLeaf, x, *]
      · rw [htot]
        simp [nodeAt, x, y, z, *]
    · have hq1 : ¬w1 = n4 := ne_of_or h1 (by assumption) (by assumption)
      have hq2 : ¬w2 = n4 := ne_of_or h2 (by assumption) (by assumption)
      have hq4 : ¬w4 = n4 := ne_of_or h4 (by assumption) (by assumption)
      have hs5 : ¬w5 = n4 := ne_of_or h5 hq1 hq2
      refine ⟨R, L, L, ?_, ?_⟩
      · simp [findLeaf, x, *]
      · rw [htot]
        simp [nodeAt, x, y, z, *]
    · have hq1 : ¬w1 = n5 := ne_of_or h1 (by assumption) (by assumption)
      have hq2 : ¬w2 = n5 := ne_of_or h2 (by assumption) (by assumption)
      have hq4 : ¬w4 = n5 := ne_of_or h4 (by assumption) (by assumption)
      have hs5 : ¬w5 = n5 := ne_of_or h5 hq1 hq2
      refine ⟨R, L, R, ?_, ?_⟩
      · simp [findLeaf, x, *]
      · rw [htot]
        simp [nodeAt, x, y, z, *]
    · have hq1 : ¬w1 = n6 := ne_of_or h1 (by assumption) (by assumption)
      have hq2 : ¬w2 = n6 := ne_of_or h2 (by assumption) (by assumption)
      have hq3 : ¬w3 = n6 := ne_of_or h3 (by assumption) (by assumption)
      have hs5 : ¬w5 = n6 := ne_of_or h5 hq1 hq2
      refine ⟨R, R, L, ?_, ?_⟩
      · simp [findLeaf, x, *]
      · rw [htot]
        simp [nodeAt, x, y, z, *]
    · have hq1 : ¬w1 = n7 := ne_of_or h1 (by assumption) (by assumption)
      have hq2 : ¬w2 = n7 := ne_of_or h2 (by assumption) (by assumption)
      have hq3 : ¬w3 = n7 := ne_of_or h3 (by assumption) (by assumption)
      have hs5 : ¬w5 = n7 := ne_of_or h5 hq1 hq2
      refine ⟨R, R, R, ?_, ?_⟩
      · simp [findLeaf, x, *]
      · rw [htot]
        simp [nodeAt, x, y, z, *]

/-- Claim C19: after a full simulation with draws in range, the totals of `getTotalScoreByName`
over the eight roster names add up to the sum of the scores recorded on the seven match nodes;
the winner recorded on each match is exactly one roster name; and the sum lies between 7 and
70. -/
theorem total_scores_sum (t : Tournament) (h : ShuffleOk t.rng) (hs : ScoresOk t.rng) :
    (roster.map (getTotalScoreByName (runTournament t).root)).sum =
      (matchOrder.map (fun m => ((runTournament t).root.nodeAt m).score)).sum ∧
    (∀ k, k < 7 →
      roster.count ((runTournament t).root.nodeAt (matchOrder.getD k [])).name = 1) ∧
    7 ≤ (roster.map (getTotalScoreByName (runTournament t).root)).sum ∧
    (roster.map (getTotalScoreByName (runTournament t).root)).sum ≤ 70 := by
  obtain ⟨f, hT, hperm, hdec, b1, b2, b3, b4, b5, b6, b7⟩ := runTournament_scores t h hs
  obtain ⟨m1, m2, m3, m4, m5, m6, m7⟩ := decided_winners_mem f hdec
  have hsum : (roster.map (getTotalScoreByName (runTournament t).root)).sum =
      f.s1 + f.s2 + f.s3 + f.s4 + f.s5 + f.s6 + f.s7 := by
    rw [← (hperm.map _).sum_eq, hT]
    have hbnd : (0 ≤ f.s1 ∧ f.s1 ≤ 10) ∧ (0 ≤ f.s2 ∧ f.s2 ≤ 10) ∧ (0 ≤ f.s3 ∧ f.s3 ≤ 10) ∧
        (0 ≤ f.s4 ∧ f.s4 ≤ 10) ∧ (0 ≤ f.s5 ∧ f.s5 ≤ 10) ∧ (0 ≤ f.s6 ∧ f.s6 ≤ 10) ∧
        (0 ≤ f.s7 ∧ f.s7 ≤ 10) :=
      ⟨⟨by omega, b1.2⟩, ⟨by omega, b2.2⟩, ⟨by omega, b3.2⟩, ⟨by omega, b4.2⟩, ⟨by omega, b5.2⟩,
        ⟨by omega, b6.2⟩, ⟨by omega, b7.2⟩⟩
    simp only [Fields.names, List.map_cons, List.map_nil, List.sum_cons, List.sum_nil,
      total_tree f _ hbnd]
    have c1 := credit_one hperm f.w1 f.s1 m1
    have c2 := credit_one hperm f.w2 f.s2 m2
    have c3 := credit_one hperm f.w3 f.s3 m3
    have c4 := credit_one hperm f.w4 f.s4 m4
    have c5 := credit_one hperm f.w5 f.s5 m5
    have c6 := credit_one hperm f.w6 f.s6 m6
    have c7 := credit_one hperm f.w7 f.s7 m7
    linarith
  have hmatch : (matchOrder.map (fun m => ((runTournament t).root.nodeAt m).score)).sum =
      f.s1 + f.s2 + f.s3 + f.s4 + f.s5 + f.s6 + f.s7 := by
    rw [hT]
    simp only [matchOrder, List.map_cons, List.map_nil, List.sum_cons, List.sum_nil,
      Fields.tree, nodeAt, Player.score_node]
    ring
  refine ⟨hsum.trans hmatch.symm, ?_, ?_, ?_⟩
  · intro k hk
    have hnd : roster.Nodup := by decide
    apply List.count_eq_one_of_mem hnd
    rw [hT]
    interval_cases k <;>
      simp only [matchOrder, List.getD_cons_zero, List.getD_cons_succ, Fields.tree, nodeAt,
        Player.name_node] <;>
      apply hperm.subset <;> assumption
  · rw [hsum]; omega
  · rw [hsum]; omega

set_option maxHeartbeats 4000000 in
theorem pathLengths_tree (T : Tournament) (f : Fields) (hT : T.root = f.tree)
    (hperm : f.names.Perm roster) (hdec : f.Decided) :
    ((f.names.map (fun p => (pathToFinal T p).length)).count 1 = 4 ∧
      (f.names.map (fun p => (pathToFinal T p).length)).count 2 = 2 ∧
      (f.names.map (fun p => (pathToFinal T p).length)).count 3 = 2) ∧
    ((pathToFinal T f.w5).length = 3 ∧ (pathToFinal T f.w5).getLast? = some 7) ∧
    ((pathToFinal T f.w6).length = 3 ∧ (pathToFinal T f.w6).getLast? = some 7) ∧
    f.w5 ≠ f.w6 := by
  have hpt := pathToFinal_tree T f hT hperm
  rcases f with ⟨n0, n1, n2, n3, n4, n5, n6, n7, w1, w2, w3, w4, w5, w6, w7,
    s1, s2, s3, s4, s5, s6, s7⟩
  simp only [Fields.names] at hperm
  have hne := names_ne hperm
  simp only [ne_eq] at hne
  obtain ⟨⟨a1, a2, a3, a4, a5, a6, a7⟩, ⟨b0, b2, b3, b4, b5, b6, b7⟩, ⟨c0, c1, c3, c4, c5, c6, c7⟩,
    ⟨d0, d1, d2, d4, d5, d6, d7⟩, ⟨e0, e1, e2, e3, e5, e6, e7⟩, ⟨f0, f1, f2, f3, f4, f6, f7⟩,
    ⟨g0, g1, g2, g3, g4, g5, g7⟩, ⟨i0, i1, i2, i3, i4, i5, i6⟩⟩ := hne
  obtain ⟨h1, h2, h3, h4, h5, h6, -⟩ := hdec
  simp only at h1 h2 h3 h4 h5 h6 hpt
  obtain ⟨p0, p1, p2, p3, p4, p5, p6, p7⟩ := hpt
  simp only [Fields.names, List.map_cons, List.map_nil, ne_eq]
  rcases h1 with rfl | rfl <;> rcases h2 with rfl | rfl <;> rcases h3 with rfl | rfl <;>
    rcases h4 with rfl | rfl <;> rcases h5 with rfl | rfl <;> rcases h6 with rfl | rfl <;>
    simp only [p0, p1, p2, p3, p4, p5, p6, p7] <;>
    simp [*]

/-- Claim C20: after a full simulation, among the lengths of `pathToFinal` over the eight roster
players there are exactly four 1, two 2 and two 3; the names on the two children of the root (the
two finalists) are different roster names, each with a path of length 3 that ends in 7, and the
champion is one of them: the losing finalist has a full ladder as well. -/
theorem pathToFinal_length_distribution (t : Tournament) (h : ShuffleOk t.rng) :
    ((roster.map (fun p => (pathToFinal (runTournament t) p).length)).count 1 = 4 ∧
      (roster.map (fun p => (pathToFinal (runTournament t) p).length)).count 2 = 2 ∧
      (roster.map (fun p => (pathToFinal (runTournament t) p).length)).count 3 = 2) ∧
    ((runTournament t).root.left.name ∈ roster ∧
      (pathToFinal (runTournament t) (runTournament t).root.left.name).length = 3 ∧
      (pathToFinal (runTournament t) (runTournament t).root.left.name).getLast? = some 7) ∧
    ((runTournament t).root.right.name ∈ roster ∧
      (pathToFinal (runTournament t) (runTournament t).root.right.name).length = 3 ∧
      (pathToFinal (runTournament t) (runTournament t).root.right.name).getLast? = some 7) ∧
    (runTournament t).root.left.name ≠ (runTournament t).root.right.name ∧
    ((runTournament t).root.name = (runTournament t).root.left.name ∨
      (runTournament t).root.name = (runTournament t).root.right.name) := by
  obtain ⟨f, hT, hperm, hdec⟩ := runTournament_tree t h
  obtain ⟨hc, hl, hr, hlr⟩ := pathLengths_tree (runTournament t) f hT hperm hdec
  obtain ⟨-, -, -, -, m5, m6, -⟩ := decided_winners_mem f hdec
  have hln : (runTournament t).root.left.name = f.w5 := by rw [hT]; rfl
  have hrn : (runTournament t).root.right.name = f.w6 := by rw [hT]; rfl
  have hn : (runTournament t).root.name = f.w7 := by rw [hT]; rfl
  have hcount : ∀ n : Nat,
      (roster.map (fun p => (pathToFinal (runTournament t) p).length)).count n =
        (f.names.map (fun p => (pathToFinal (runTournament t) p).length)).count n :=
    fun n => ((hperm.map _).count_eq n).symm
  rw [hcount, hcount, hcount, hln, hrn, hn]
  exact ⟨hc, ⟨hperm.subset m5, hl⟩, ⟨hperm.subset m6, hr⟩, hlr, hdec.2.2.2.2.2.2⟩

/-! ## Further theorems at the sample run -/

theorem findLeaf_returns_first_leaf_witness :
    findLeaf (runTournament sampleTournament).root "David" = some [R, R, R] ∧
    firstLeafNamed (runTournament sampleTournament).root "David" = some [R, R, R] ∧
    (∀ name : String,
      findLeaf (runTournament sampleTournament).root name =
        findLeaf (buildTournament sampleTournament).root name) :=
  ⟨by decide, by decide, (findLeaf_returns_first_leaf sampleTournament).2.2.1⟩

theorem findMatchByName_highest_round_witness :
    ShuffleOk sampleTournament.rng ∧
    findMatchByName (runTournament sampleTournament).root "David" = some [] ∧
    findMatchByName (runTournament sampleTournament).root "Henry" = some [L] ∧
    findMatchByName (runTournament sampleTournament).root "Alice" = none ∧
    (∀ name : String,
      findMatchByName (runTournament sampleTournament).root name = none ↔
        ∀ k, k < 7 →
          ((runTournament sampleTournament).root.nodeAt (matchOrder.getD k [])).name ≠ name) :=
  ⟨by decide, by decide, by decide, by decide,
    (findMatchByName_highest_round sampleTournament (by decide)).1⟩

theorem simulation_changes_only_results_witness :
    4 < 7 ∧ 5 ≤ 7 ∧
    ((playedUpTo 4 (buildTournament sampleTournament)).root.nodeAt [L]).name = "SF1 TBD" ∧
    ((playedUpTo 5 (buildTournament sampleTournament)).root.nodeAt [L]).name = "Henry" ∧
    ((playedUpTo 5 (buildTournament sampleTournament)).root.nodeAt [L]).score = 6 ∧
    eraseResults (playedUpTo 5 (buildTournament sampleTournament)).root =
      eraseResults (buildTournament sampleTournament).root ∧
    ((playedUpTo 5 (buildTournament sampleTournament)).root.nodeAt (matchOrder.getD 4 [])).name =
      (if 5 ≤ 4 then ((buildTournament sampleTournament).root.nodeAt (matchOrder.getD 4 [])).name
       else ((runTournament sampleTournament).root.nodeAt (matchOrder.getD 4 [])).name) ∧
    ((runTournament sampleTournament).root.nodeAt (matchOrder.getD 4 [])).score =
      (if (sampleTournament.rng.draws (sampleTournament.rng.pos + 7 + 2 * 4) : Int) ≥
          sampleTournament.rng.draws (sampleTournament.rng.pos + 7 + 2 * 4 + 1)
       then (sampleTournament.rng.draws (sampleTournament.rng.pos + 7 + 2 * 4) : Int)
       else (sampleTournament.rng.draws (sampleTournament.rng.pos + 7 + 2 * 4 + 1) : Int)) :=
  ⟨by decide, by decide, by decide, by decide, by decide,
    (simulation_changes_only_results sampleTournament 4 (by decide) 5 (by decide)).1,
    (simulation_changes_only_results sampleTournament 4 (by decide) 5 (by decide)).2.1,
    (simulation_changes_only_results sampleTournament 4 (by decide) 5
      (by decide)).2.2.2.2.2.2.2.2.2.2.1⟩

theorem random_draw_order_witness :
    0 < 7 ∧
    (buildTournament sampleTournament).rng = ⟨sampleTournament.rng.draws,
      sampleTournament.rng.pos + 7⟩ ∧
    (runTournament sampleTournament).rng.pos = sampleTournament.rng.pos + 21 ∧
    (runTournament sampleTournament).rng.pos - (buildTournament sampleTournament).rng.pos = 14 :=
  ⟨by decide, (random_draw_order sampleTournament 0 (by decide)).1,
    (random_draw_order sampleTournament 0 (by decide)).2.2.2.2.2.2.1,
    (random_draw_order sampleTournament 0 (by decide)).2.2.2.2.2.2.2⟩

theorem lca_deepest_common_node_witness :
    7 ≤ 7 ∧
    ((playedUpTo 7 (buildTournament sampleTournament)).root.nodeAt [L, L, R]).isNull = false ∧
    ((playedUpTo 7 (buildTournament sampleTournament)).root.nodeAt [L, R]).isNull = false ∧
    commonPrefix [L, L, R] [L, R] = [L] ∧
    lca (playedUpTo 7 (buildTournament sampleTournament)).root [] [L, L, R] [L, R] =
      some (commonPrefix [L, L, R] [L, R]) :=
  ⟨by decide, by decide, by decide, by decide,
    (lca_deepest_common_node sampleTournament 7 (by decide) [L, L, R] [L, R] (by decide)
      (by decide)).1⟩

theorem total_scores_sum_witness :
    ShuffleOk sampleTournament.rng ∧ ScoresOk sampleTournament.rng ∧
    (roster.map (getTotalScoreByName (runTournament sampleTournament).root)).sum = 44 ∧
    ((roster.map (getTotalScoreByName (runTournament sampleTournament).root)).sum =
        (matchOrder.map (fun m => ((runTournament sampleTournament).root.nodeAt m).score)).sum ∧
      (∀ k, k < 7 →
        roster.count
          ((runTournament sampleTournament).root.nodeAt (matchOrder.getD k [])).name = 1) ∧
      7 ≤ (roster.map (getTotalScoreByName (runTournament sampleTournament).root)).sum ∧
      (roster.map (getTotalScoreByName (runTournament sampleTournament).root)).sum ≤ 70) :=
  ⟨by decide, by decide, by decide,
    total_scores_sum sampleTournament (by decide) (by decide)⟩

theorem pathToFinal_length_distribution_witness :
    ShuffleOk sampleTournament.rng ∧
    roster.map (fun p => (pathToFinal (runTournament sampleTournament) p).length) =
      [1, 1, 2, 3, 1, 1, 2, 3] ∧
    ((roster.map (fun p => (pathToFinal (runTournament sampleTournament) p).length)).count 1 = 4 ∧
      (roster.map (fun p => (pathToFinal (runTournament sampleTournament) p).length)).count 2 = 2 ∧
      (roster.map (fun p => (pathToFinal (runTournament sampleTournament) p).length)).count 3 = 2) :=
  ⟨by decide, by decide, (pathToFinal_length_distribution sampleTournament (by decide)).1⟩

theorem getTotalScoreByName_sums_wins_witness :
    ShuffleOk sampleTournament.rng ∧ ScoresOk sampleTournament.rng ∧
    getTotalScoreByName (runTournament sampleTournament).root "David" = 14 ∧
    (wonScores (runTournament sampleTournament).root "David").sum = 14 ∧
    (∃ a b c,
      findLeaf (runTournament sampleTournament).root (runTournament sampleTournament).root.name =
        some [a, b, c] ∧
      getTotalScoreByName (runTournament sampleTournament).root
          (runTournament sampleTournament).root.name =
        ((runTournament sampleTournament).root.nodeAt [a, b]).score +
          ((runTournament sampleTournament).root.nodeAt [a]).score +
          (runTournament sampleTournament).root.score) :=
  ⟨by decide, by decide, by decide, by decide,
    (getTotalScoreByName_sums_wins sampleTournament (by decide) (by decide)).2.2.2.2.2.2.2⟩

end KnockOut
